import Mathlib

/-!
Shallow embedding of the binary serial protocol and the persistent
configuration store of tuffrabit/tinygo-narwhal-rp2040.

Conventions of the embedding:
- Go bytes, uint8/uint16/uint32 values are `Nat`; an explicit Go conversion
  such as `byte(v)` or a value read into a byte is mirrored by `% 256`
  (likewise `% 65536`, `% 4294967296`); values that are byte-typed in Go are
  otherwise carried as plain `Nat` and theorems assume them `< 256` where it
  matters, exactly what Go's type system guarantees.
- Byte streams, buffers and file contents are `List Nat`.
- Fallible Go functions return `Except`; Go errors become inductive values.
- The LittleFS filesystem collaborator is modelled as in-memory directories
  (association lists of name-to-content, names being ASCII byte lists); an
  `Oracle` of booleans injects the failures the filesystem can report, one
  flag per fallible primitive a storage operation performs.
-/

namespace Narwhal

/-! ## Protocol constants (src/pkg/protocol/protocol.go, lines 25-49) -/

def SyncByte : Nat := 0xAA

def CmdGetDeviceConfig : Nat := 0x01

def CmdSetDeviceConfig : Nat := 0x02

def CmdGetProfile : Nat := 0x03

def CmdSetProfile : Nat := 0x04

def CmdDeleteProfile : Nat := 0x05

def CmdListProfiles : Nat := 0x06

def CmdGetStorageStats : Nat := 0x07

def CmdPing : Nat := 0x08

def CmdFactoryReset : Nat := 0x09

def CmdGetVersion : Nat := 0x10

/-- Modelled from the spec: the command code `0x7F Discover` and its handler
are referenced by the repository's protocol tests (TestDiscoverCommand), by
the display task and by the protocol document, but the `protocol.go` snapshot
under inspection does not contain the constant itself; the spec fixes the
value `0x7F`. -/
def CmdDiscover : Nat := 0x7F

def StatusOK : Nat := 0x00

def StatusError : Nat := 0x01

def StatusInvalidCmd : Nat := 0x02

def StatusInvalidData : Nat := 0x03

def StatusNotFound : Nat := 0x04

def StatusNoSpace : Nat := 0x05

def StatusVersionMismatch : Nat := 0x06

def StatusCRCError : Nat := 0x07

/-- CurrentVersion of pkg/config: the config format version constant. -/
def CurrentVersion : Nat := 1

/-! ## Little-endian integer codecs (encoding/binary as used by the repo) -/

/-- binary.LittleEndian.Uint16: b[0] widened or-ed with b[1] shifted left 8.
Byte-typed arguments are injected with `% 256`. -/
def u16le (lo hi : Nat) : Nat := (lo % 256) ||| ((hi % 256) <<< 8)

/-- binary.LittleEndian.Uint32 over four bytes, least significant first. -/
def u32le (b0 b1 b2 b3 : Nat) : Nat :=
  (b0 % 256) ||| ((b1 % 256) <<< 8) ||| ((b2 % 256) <<< 16) ||| ((b3 % 256) <<< 24)

/-- binary.LittleEndian.PutUint16: the bytes `byte(v)` and `byte(v >> 8)`. -/
def putU16 (v : Nat) : List Nat := [v % 256, (v >>> 8) % 256]

/-- binary.LittleEndian.PutUint32: four truncated byte conversions. -/
def putU32 (v : Nat) : List Nat :=
  [v % 256, (v >>> 8) % 256, (v >>> 16) % 256, (v >>> 24) % 256]

/-! ## CRC16-CCITT (protocol.go calcCRC, lines 412-429) -/

/-- One iteration of the inner bit loop of calcCRC: a uint16 left shift,
xor-ing the polynomial 0x1021 when the top bit was set. -/
def crcShift (crc : Nat) : Nat :=
  if crc &&& 0x8000 ≠ 0 then ((crc <<< 1) % 65536) ^^^ 0x1021
  else (crc <<< 1) % 65536

/-- The inner loop of calcCRC runs crcShift `n` times (the source uses 8). -/
def crcRounds : Nat → Nat → Nat
  | 0, crc => crc
  | n + 1, crc => crcRounds n (crcShift crc)

/-- The body of calcCRC's byte loop: xor the widened byte shifted left 8 into
the accumulator, then run the bit loop eight times. -/
def crcByteStep (crc b : Nat) : Nat := crcRounds 8 (crc ^^^ ((b % 256) <<< 8))

/-- calcCRC: CRC16-CCITT, polynomial 0x1021, initial value 0xFFFF. -/
def calcCRC (data : List Nat) : Nat := data.foldl crcByteStep 0xFFFF

/-! ## Frames and responses (protocol.go lines 69-79) -/

structure Frame where
  Cmd : Nat
  Payload : List Nat
deriving DecidableEq, Repr

structure Response where
  Status : Nat
  Payload : List Nat
deriving DecidableEq, Repr

/-- Errors of the frame reader: ErrInvalidFrame, ErrCRCMismatch, and a
transport error from a short read (io.ReadFull failing). -/
inductive FrameErr where
  | invalidFrame
  | crcMismatch
  | shortRead
deriving DecidableEq, Repr

/-- ReadFrame (protocol.go lines 82-132) over a byte stream modelled as the
list of bytes the reader would deliver; on success it returns the frame and
the bytes the reader did not consume. Each io.ReadFull of n bytes succeeds
exactly when n bytes remain. -/
def ReadFrame (s : List Nat) : Except FrameErr (Frame × List Nat) :=
  match s with
  | [] => .error .shortRead
  | sync :: s1 =>
    if sync ≠ SyncByte then .error .invalidFrame
    else
      match s1 with
      | cmd :: l0 :: l1 :: s2 =>
        let length := u16le l0 l1
        if 4096 < length then .error .invalidFrame
        else if s2.length < length then .error .shortRead
        else
          match s2.drop length with
          | c0 :: c1 :: s3 =>
            let receivedCRC := u16le c0 c1
            let calculatedCRC := calcCRC ([cmd, l0, l1] ++ s2.take length)
            if receivedCRC ≠ calculatedCRC then .error .crcMismatch
            else .ok (⟨cmd, s2.take length⟩, s3)
          | _ => .error .shortRead
      | _ => .error .shortRead

/-- WriteFrame (protocol.go lines 167-195): the bytes the single w.Write
call hands to the transport. The CRC is computed over command, the two
little-endian length bytes, and the payload. -/
def WriteFrame (f : Frame) : List Nat :=
  let body := f.Cmd :: putU16 (f.Payload.length % 65536) ++ f.Payload
  SyncByte :: body ++ putU16 (calcCRC body)

/-- WriteResponse (protocol.go lines 135-164): identical shape keyed by the
status byte. -/
def WriteResponse (r : Response) : List Nat :=
  let body := r.Status :: putU16 (r.Payload.length % 65536) ++ r.Payload
  SyncByte :: body ++ putU16 (calcCRC body)

/-! ## Configuration records (pkg/config) -/

/-- KeyBinding, an 8-byte record. All fields are Go uint8 except OutputValue,
a uint16; they are carried as Nat. -/
structure KeyBinding where
  InputType : Nat
  InputID : Nat
  OutputType : Nat
  OutputValue : Nat
  Modifiers : Nat
  Flags : Nat
  Reserved : Nat
deriving DecidableEq, Repr

/-- The zero value of KeyBinding, what an element of a Go [32]KeyBinding
array holds before it is assigned. -/
def KeyBinding.zero : KeyBinding := ⟨0, 0, 0, 0, 0, 0, 0⟩

/-- Profile, a 286-byte record. Name stands for the Go [16]byte array and
Bindings for the [32]KeyBinding array; the fixed lengths are Go type
invariants, restored by padTo wherever the arrays are serialized. -/
structure Profile where
  Version : Nat
  Flags : Nat
  RGBColor : Nat
  RGBPattern : Nat
  Reserved1 : Nat
  BindingCount : Nat
  Reserved2 : Nat
  Name : List Nat
  Bindings : List KeyBinding
deriving DecidableEq, Repr

/-- DeviceConfig, a 12-byte record. -/
structure DeviceConfig where
  Version : Nat
  Flags : Nat
  ActiveProfile : Nat
  Brightness : Nat
  DebounceMs : Nat
  Reserved1 : Nat
  Reserved2 : Nat
deriving DecidableEq, Repr

/-- The only error of the config codec: ErrInvalidSize. -/
inductive CfgErr where
  | invalidSize
deriving DecidableEq, Repr

/-- A Go fixed-size array [n]T viewed as a list of exactly n elements: a
model list of the right length passes through unchanged, and the zero
padding mirrors the zero-initialised buffer a short copy would leave. -/
def padTo {α : Type} (n : Nat) (z : α) (l : List α) : List α :=
  (l ++ List.replicate n z).take n

/-- The 8-byte block Profile.MarshalBinary writes for one binding
(uint8 conversions on the two enum fields, PutUint16 for OutputValue). -/
def serBinding (kb : KeyBinding) : List Nat :=
  [kb.InputType % 256, kb.InputID, kb.OutputType % 256,
   kb.OutputValue % 256, (kb.OutputValue >>> 8) % 256,
   kb.Modifiers, kb.Flags, kb.Reserved]

/-- The binding Profile.UnmarshalBinary reads from one 8-byte block. -/
def parseBinding (b : List Nat) : KeyBinding :=
  { InputType := b.getD 0 0
    InputID := b.getD 1 0
    OutputType := b.getD 2 0
    OutputValue := u16le (b.getD 3 0) (b.getD 4 0)
    Modifiers := b.getD 5 0
    Flags := b.getD 6 0
    Reserved := b.getD 7 0 }

/-- The binding loop of Profile.UnmarshalBinary: block i covers bytes
30 + 8i up to 30 + 8i + 7, which is the i-th 8-byte chunk of the data
after offset 30. -/
def parseBindings : Nat → List Nat → List KeyBinding
  | 0, _ => []
  | n + 1, data => parseBinding (data.take 8) :: parseBindings n (data.drop 8)

/-- Profile.MarshalBinary (pkg/config, layout of the 286-byte buffer). -/
def Profile.marshalBinary (p : Profile) : List Nat :=
  putU16 p.Version ++ putU32 p.Flags ++ putU32 p.RGBColor ++
  [p.RGBPattern, p.Reserved1, p.BindingCount, p.Reserved2] ++
  padTo 16 0 p.Name ++ (padTo 32 KeyBinding.zero p.Bindings).flatMap serBinding

/-- The Profile that Profile.UnmarshalBinary builds from at least 286 bytes
of data, reading each field at its offset. -/
def profileOf (data : List Nat) : Profile :=
  { Version := u16le (data.getD 0 0) (data.getD 1 0)
    Flags := u32le (data.getD 2 0) (data.getD 3 0) (data.getD 4 0) (data.getD 5 0)
    RGBColor := u32le (data.getD 6 0) (data.getD 7 0) (data.getD 8 0) (data.getD 9 0)
    RGBPattern := data.getD 10 0
    Reserved1 := data.getD 11 0
    BindingCount := data.getD 12 0
    Reserved2 := data.getD 13 0
    Name := (data.drop 14).take 16
    Bindings := parseBindings 32 (data.drop 30) }

/-- Profile.UnmarshalBinary: ErrInvalidSize below 286 bytes, otherwise the
fields read at their offsets (extra bytes are ignored). -/
def Profile.unmarshalBinary (data : List Nat) : Except CfgErr Profile :=
  if data.length < 286 then .error .invalidSize else .ok (profileOf data)

/-- DeviceConfig.MarshalBinary (pkg/config, layout of the 12-byte buffer). -/
def DeviceConfig.marshalBinary (d : DeviceConfig) : List Nat :=
  putU16 d.Version ++ putU32 d.Flags ++
  [d.ActiveProfile, d.Brightness, d.DebounceMs, d.Reserved1] ++ putU16 d.Reserved2

/-- The DeviceConfig that DeviceConfig.UnmarshalBinary builds from at least
12 bytes of data. -/
def deviceCfgOf (data : List Nat) : DeviceConfig :=
  { Version := u16le (data.getD 0 0) (data.getD 1 0)
    Flags := u32le (data.getD 2 0) (data.getD 3 0) (data.getD 4 0) (data.getD 5 0)
    ActiveProfile := data.getD 6 0
    Brightness := data.getD 7 0
    DebounceMs := data.getD 8 0
    Reserved1 := data.getD 9 0
    Reserved2 := u16le (data.getD 10 0) (data.getD 11 0) }

/-- DeviceConfig.UnmarshalBinary: ErrInvalidSize below 12 bytes. -/
def DeviceConfig.unmarshalBinary (data : List Nat) : Except CfgErr DeviceConfig :=
  if data.length < 12 then .error .invalidSize else .ok (deviceCfgOf data)

/-! ## The filesystem model (the tinyfs/littlefs collaborator)

Manager code only ever touches two directories, /config (the device-config
file and its temp file) and /config/profiles (one file per slot); each is
modelled as an association list from base file name (ASCII bytes) to file
content. Directory listings return the names in list order, and a real
directory never holds two entries of one name, which reachable model states
preserve. littlefs reports a "No directory entry" error when a missing path
is opened, removed or renamed, modelled as Err.noEntry; other injected
filesystem failures are Err.ioErr. -/

abbrev FName := List Nat

/-- Lookup by file name in a directory (fs.Open of an existing entry). -/
def dirGet : List (FName × List Nat) → FName → Option (List Nat)
  | [], _ => none
  | e :: d, k => if e.1 = k then some e.2 else dirGet d k

/-- Create or overwrite a file (OpenFile with O_CREATE, or a rename target). -/
def dirPut : List (FName × List Nat) → FName → List Nat → List (FName × List Nat)
  | [], k, v => [(k, v)]
  | e :: d, k, v => if e.1 = k then (k, v) :: d else e :: dirPut d k v

/-- fs.Remove: none when the entry does not exist (littlefs noEntry). -/
def dirDel : List (FName × List Nat) → FName → Option (List (FName × List Nat))
  | [], _ => none
  | e :: d, k => if e.1 = k then some d else (dirDel d k).map (e :: ·)

/-- fs.Remove whose result the caller ignores: the directory as it is left
whether or not the entry existed. -/
def dirDelForce (d : List (FName × List Nat)) (k : FName) :
    List (FName × List Nat) :=
  (dirDel d k).getD d

/-! ## File names -/

/-- Decimal digits of n, most significant first, as strconv.Itoa renders
them; structural recursion on a fuel bound above the value. -/
def itoaCore : Nat → Nat → List Nat
  | 0, _ => []
  | fuel + 1, n =>
    if n < 10 then [48 + n] else itoaCore fuel (n / 10) ++ [48 + n % 10]

/-- strconv.Itoa of a nonnegative value, as ASCII bytes. -/
def itoa (n : Nat) : List Nat := itoaCore (n + 1) n

/-- The value of a digit string read left to right, as strconv.ParseUint
accumulates it. -/
def digitsVal (s : List Nat) : Nat := s.foldl (fun a c => a * 10 + (c - 48)) 0

/-- strconv.ParseUint(s, 10, 8): fails on an empty string, on any non-digit
byte, and on a value above 255 (the 8-bit range check). -/
def parseUint8 (s : List Nat) : Option Nat :=
  if s = [] then none
  else if s.all (fun c => decide (48 ≤ c ∧ c ≤ 57)) then
    if digitsVal s ≤ 255 then some (digitsVal s) else none
  else none

/-- The ".bin" suffix of persisted records (profileSuffix, and the
device.bin file). -/
def dotBin : List Nat := [46, 98, 105, 110]

/-- The ".tmp" suffix of temporary files (tempSuffix). -/
def dotTmp : List Nat := [46, 116, 109, 112]

/-- The base name "device.bin" of the singleton config file
(deviceFile = /config/device.bin). -/
def deviceFileName : List Nat := [100, 101, 118, 105, 99, 101] ++ dotBin

/-- The base name strconv.Itoa(int(slot)) + ".bin" that Manager.profilePath
joins under /config/profiles. -/
def profileFileName (slot : Nat) : List Nat := itoa slot ++ dotBin

/-- strings.TrimSuffix: drop the suffix when present, else unchanged. -/
def trimSuffix (s suf : List Nat) : List Nat :=
  if suf.isSuffixOf s then s.take (s.length - suf.length) else s

/-- The body of Manager.ListProfiles' loop for one directory entry: skip
names without the ".bin" suffix, skip temp files, trim the suffix (the
profilePrefix to trim first is the empty string, an identity) and parse the
slot number in decimal, 8-bit range checked. -/
def parseProfileEntry (name : List Nat) : Option Nat :=
  if ¬ dotBin.isSuffixOf name then none
  else if dotTmp.isSuffixOf name then none
  else parseUint8 (trimSuffix name dotBin)

/-! ## The storage manager (pkg/storage) -/

/-- Errors crossing the storage boundary: the two littlefs-level kinds and
pkg/storage's sentinel errors (ErrProfileNotFound, ErrFlashFull,
ErrInvalidProfile) plus the config codec's ErrInvalidSize. -/
inductive Err where
  | noEntry
  | ioErr
  | profileNotFound
  | flashFull
  | invalidProfile
  | invalidSize
deriving DecidableEq, Repr

/-- The mounted filesystem: whether the /config and /config/profiles
directories exist (a freshly formatted store has neither until ensureDirs
creates them), the entries of each directory, and the block device size
GetStats reads. -/
structure FS where
  configDir : Bool
  profilesDir : Bool
  config : List (FName × List Nat)
  profiles : List (FName × List Nat)
  devSize : Nat
deriving DecidableEq, Repr

/-- The freshly formatted filesystem: no directories, no files. -/
def FS.empty (devSize : Nat) : FS := ⟨false, false, [], [], devSize⟩

/-- Failure injection for the filesystem collaborator: one flag per fallible
primitive a save performs. A flag set means that call returns an error. -/
structure Oracle where
  mkdirConfigFails : Bool
  mkdirProfilesFails : Bool
  createFails : Bool
  writeFails : Bool
  syncFails : Bool
  closeFails : Bool
  renameFails : Bool
deriving DecidableEq, Repr

/-- The oracle under which every filesystem call succeeds. -/
def Oracle.ok : Oracle := ⟨false, false, false, false, false, false, false⟩

/-- Manager.atomicWrite acting on the directory holding filepath; name is
the base name, the temp name appends ".tmp". Mirrors the source order:
remove stale temp (result ignored), create temp, write, sync, close - on a
failure of any of these the temp file is removed and the error returned -
then remove the old target (result ignored) and rename temp onto target,
removing the temp and returning the error if the rename fails. -/
def atomicWrite (o : Oracle) (d : List (FName × List Nat)) (name : FName)
    (data : List Nat) : Except Err Unit × List (FName × List Nat) :=
  let temp := name ++ dotTmp
  let d1 := dirDelForce d temp
  if o.createFails then (.error .ioErr, d1)
  else
    let d2 := dirPut d1 temp []
    if o.writeFails then (.error .ioErr, dirDelForce d2 temp)
    else
      let d3 := dirPut d2 temp data
      if o.syncFails then (.error .ioErr, dirDelForce d3 temp)
      else if o.closeFails then (.error .ioErr, dirDelForce d3 temp)
      else
        let d4 := dirDelForce d3 name
        if o.renameFails then (.error .ioErr, dirDelForce d4 temp)
        else
          match dirGet d4 temp with
          | some c => (.ok (), dirPut (dirDelForce d4 temp) name c)
          | none => (.error .noEntry, d4)

/-- Manager.ensureDirs: Mkdir of /config, then of /config/profiles. A Mkdir
of a directory that already exists fails with "already exists", which
isExist tolerates, so a succeeding pass simply guarantees both directories
exist. An injected failure of the first Mkdir returns before the second is
attempted; a failure of the second leaves the /config directory created. -/
def ensureDirs (o : Oracle) (fs : FS) : Except Err Unit × FS :=
  if o.mkdirConfigFails then (.error .ioErr, fs)
  else if o.mkdirProfilesFails then
    (.error .ioErr, { fs with configDir := true })
  else (.ok (), { fs with configDir := true, profilesDir := true })

/-- Manager.LoadDevice: open deviceFile - an absent file makes Open fail
with the littlefs noEntry error, which LoadDevice returns unchanged (it has
no translation to ErrProfileNotFound, unlike LoadProfile) - read 12 bytes,
ErrInvalidProfile on a short file, then unmarshal. -/
def Manager.LoadDevice (fs : FS) : Except Err DeviceConfig :=
  match dirGet fs.config deviceFileName with
  | none => .error .noEntry
  | some content =>
    if content.length < 12 then .error .invalidProfile
    else
      match DeviceConfig.unmarshalBinary (content.take 12) with
      | .error _ => .error .invalidSize
      | .ok cfg => .ok cfg

/-- Manager.SaveDevice: ensure directories, set cfg.Version through the
pointer, marshal (which cannot fail), atomically write deviceFile. The
returned DeviceConfig is the caller's struct after the call. -/
def Manager.SaveDevice (o : Oracle) (fs : FS) (cfg : DeviceConfig) :
    Except Err Unit × FS × DeviceConfig :=
  match ensureDirs o fs with
  | (.error e, fs1) => (.error e, fs1, cfg)
  | (.ok _, fs1) =>
    let cfg2 := { cfg with Version := CurrentVersion }
    let out := atomicWrite o fs1.config deviceFileName cfg2.marshalBinary
    (out.1, { fs1 with config := out.2 }, cfg2)

/-- Manager.LoadProfile: open the slot's file - IsNotExist and the littlefs
"No directory entry" error both map to ErrProfileNotFound - read 286 bytes,
ErrInvalidProfile on a short file, then unmarshal. -/
def Manager.LoadProfile (fs : FS) (slot : Nat) : Except Err Profile :=
  match dirGet fs.profiles (profileFileName slot) with
  | none => .error .profileNotFound
  | some content =>
    if content.length < 286 then .error .invalidProfile
    else
      match Profile.unmarshalBinary (content.take 286) with
      | .error _ => .error .invalidSize
      | .ok p => .ok p

/-- Manager.SaveProfile: ensure directories, set profile.Version through the
pointer, marshal, atomically write the slot's file. The returned Profile is
the caller's struct after the call. -/
def Manager.SaveProfile (o : Oracle) (fs : FS) (slot : Nat) (p : Profile) :
    Except Err Unit × FS × Profile :=
  match ensureDirs o fs with
  | (.error e, fs1) => (.error e, fs1, p)
  | (.ok _, fs1) =>
    let p2 := { p with Version := CurrentVersion }
    let out := atomicWrite o fs1.profiles (profileFileName slot) p2.marshalBinary
    (out.1, { fs1 with profiles := out.2 }, p2)

/-- Manager.DeleteProfile: fs.Remove of the slot's file, its error - noEntry
when the slot is empty - returned unchanged. -/
def Manager.DeleteProfile (fs : FS) (slot : Nat) : Except Err Unit × FS :=
  match dirDel fs.profiles (profileFileName slot) with
  | none => (.error .noEntry, fs)
  | some d => (.ok (), { fs with profiles := d })

/-- Manager.ProfileExists: whether opening the slot's file succeeds. -/
def Manager.ProfileExists (fs : FS) (slot : Nat) : Bool :=
  (dirGet fs.profiles (profileFileName slot)).isSome

/-- Manager.ListProfiles: readDir opens /config/profiles; on a store where
that directory does not yet exist (nothing saved since formatting) the
littlefs Open fails with the "No directory entry" error, which
os.IsNotExist does not match - the repository works around exactly this in
GetStats and LoadProfile by checking the message - so ListProfiles
propagates it. Otherwise each entry's name is parsed in order. -/
def Manager.ListProfiles (fs : FS) : Except Err (List Nat) :=
  if fs.profilesDir
  then .ok ((fs.profiles.map Prod.fst).filterMap parseProfileEntry)
  else .error .noEntry

/-- Stats of Manager.GetStats; the three space fields are Go int64. -/
structure Stats where
  TotalSpace : Int
  UsedSpace : Int
  FreeSpace : Int
  ProfileCount : Nat
deriving DecidableEq, Repr

/-- The Go uint32(x) conversion of an int64. -/
def u32ofInt (x : Int) : Nat := (x % 4294967296).toNat

/-- The Stats record GetStats builds from a slot list: used space estimated
as count * 320 + 100 bytes, total space from the block device. -/
def statsOf (fs : FS) (profiles : List Nat) : Stats :=
  let used : Int := ((profiles.length * 320 + 100 : Nat) : Int)
  let total : Int := ((fs.devSize : Nat) : Int)
  ⟨total, used, total - used, profiles.length⟩

/-- Manager.GetStats: list the profiles, rescuing a ListProfiles error whose
message contains "No directory entry" (the directory not existing yet) with
the empty slot list and returning any other error; then build the Stats. -/
def Manager.GetStats (fs : FS) : Except Err Stats :=
  match Manager.ListProfiles fs with
  | .error e => if e = .noEntry then .ok (statsOf fs []) else .error e
  | .ok profiles => .ok (statsOf fs profiles)

/-- The delete loop of Manager.wipeAll: DeleteProfile per listed slot,
errors ignored. -/
def wipeSlots (fs : FS) : List Nat → FS
  | [] => fs
  | s :: rest => wipeSlots (Manager.DeleteProfile fs s).2 rest

/-- Manager.wipeAll: delete every listed profile, then remove the device
config file (result ignored); always returns nil. -/
def Manager.wipeAll (fs : FS) : FS :=
  let fs2 :=
    match Manager.ListProfiles fs with
    | .error _ => fs
    | .ok slots => wipeSlots fs slots
  { fs2 with config := dirDelForce fs2.config deviceFileName }

/-- Manager.ForceWipe: wipeAll exposed as an operation. -/
def Manager.ForceWipe (fs : FS) : Except Err Unit × FS :=
  (.ok (), Manager.wipeAll fs)

/-! ## The command dispatcher (protocol.go Handle and its sub-handlers) -/

/-- handlePing: echo the payload. -/
def handlePing (fs : FS) (payload : List Nat) : Response × FS :=
  (⟨StatusOK, payload⟩, fs)

/-- handleGetDeviceConfig: only the sentinel ErrProfileNotFound maps to
NotFound; any other load error - including the noEntry error an absent
device file produces - maps to the generic Error status. A successful load
is re-marshalled as the payload (marshalling cannot fail). -/
def handleGetDeviceConfig (fs : FS) : Response × FS :=
  match Manager.LoadDevice fs with
  | .error e =>
    if e = .profileNotFound then (⟨StatusNotFound, []⟩, fs)
    else (⟨StatusError, []⟩, fs)
  | .ok cfg => (⟨StatusOK, cfg.marshalBinary⟩, fs)

/-- handleSetDeviceConfig: exact 12-byte payload, unmarshal, save;
ErrFlashFull maps to NoSpace, any other save error to Error. -/
def handleSetDeviceConfig (o : Oracle) (fs : FS) (payload : List Nat) :
    Response × FS :=
  if payload.length ≠ 12 then (⟨StatusInvalidData, []⟩, fs)
  else
    match DeviceConfig.unmarshalBinary payload with
    | .error _ => (⟨StatusInvalidData, []⟩, fs)
    | .ok cfg =>
      match Manager.SaveDevice o fs cfg with
      | (.error e, fs2, _) =>
        if e = .flashFull then (⟨StatusNoSpace, []⟩, fs2)
        else (⟨StatusError, []⟩, fs2)
      | (.ok _, fs2, _) => (⟨StatusOK, []⟩, fs2)

/-- handleGetProfile: exact 1-byte payload, load the slot,
ErrProfileNotFound maps to NotFound, other errors to Error. -/
def handleGetProfile (fs : FS) (payload : List Nat) : Response × FS :=
  if payload.length ≠ 1 then (⟨StatusInvalidData, []⟩, fs)
  else
    match Manager.LoadProfile fs (payload.getD 0 0) with
    | .error e =>
      if e = .profileNotFound then (⟨StatusNotFound, []⟩, fs)
      else (⟨StatusError, []⟩, fs)
    | .ok profile => (⟨StatusOK, profile.marshalBinary⟩, fs)

/-- handleSetProfile: exact 287-byte payload (slot then 286 profile bytes),
unmarshal, reject a version other than CurrentVersion before any storage
call, then save; ErrFlashFull maps to NoSpace, other save errors to Error. -/
def handleSetProfile (o : Oracle) (fs : FS) (payload : List Nat) :
    Response × FS :=
  if payload.length ≠ 287 then (⟨StatusInvalidData, []⟩, fs)
  else
    match Profile.unmarshalBinary (payload.drop 1) with
    | .error _ => (⟨StatusInvalidData, []⟩, fs)
    | .ok profile =>
      if profile.Version ≠ CurrentVersion then (⟨StatusVersionMismatch, []⟩, fs)
      else
        match Manager.SaveProfile o fs (payload.getD 0 0) profile with
        | (.error e, fs2, _) =>
          if e = .flashFull then (⟨StatusNoSpace, []⟩, fs2)
          else (⟨StatusError, []⟩, fs2)
        | (.ok _, fs2, _) => (⟨StatusOK, []⟩, fs2)

/-- handleDeleteProfile: exact 1-byte payload; any error from
Manager.DeleteProfile - including the noEntry error of an empty slot - maps
to the generic Error status. -/
def handleDeleteProfile (fs : FS) (payload : List Nat) : Response × FS :=
  if payload.length ≠ 1 then (⟨StatusInvalidData, []⟩, fs)
  else
    match Manager.DeleteProfile fs (payload.getD 0 0) with
    | (.error _, fs2) => (⟨StatusError, []⟩, fs2)
    | (.ok _, fs2) => (⟨StatusOK, []⟩, fs2)

/-- handleListProfiles: the count byte uint8(len(slots)) then one byte per
occupied slot. -/
def handleListProfiles (fs : FS) : Response × FS :=
  match Manager.ListProfiles fs with
  | .error _ => (⟨StatusError, []⟩, fs)
  | .ok slots => (⟨StatusOK, (slots.length % 256) :: slots⟩, fs)

/-- handleGetStorageStats: three uint32 little-endian fields then the
profile count byte. -/
def handleGetStorageStats (fs : FS) : Response × FS :=
  match Manager.GetStats fs with
  | .error _ => (⟨StatusError, []⟩, fs)
  | .ok stats =>
    (⟨StatusOK, putU32 (u32ofInt stats.TotalSpace) ++
      putU32 (u32ofInt stats.UsedSpace) ++
      putU32 (u32ofInt stats.FreeSpace) ++ [stats.ProfileCount % 256]⟩, fs)

/-- handleFactoryReset: ForceWipe, Error on failure (ForceWipe cannot
fail). -/
def handleFactoryReset (fs : FS) : Response × FS :=
  match Manager.ForceWipe fs with
  | (.error _, fs2) => (⟨StatusError, []⟩, fs2)
  | (.ok _, fs2) => (⟨StatusOK, []⟩, fs2)

/-- handleGetVersion: firmware major 0, minor 1, then CurrentVersion as
uint16 little-endian. -/
def handleGetVersion (fs : FS) : Response × FS :=
  (⟨StatusOK, 0 :: 1 :: putU16 CurrentVersion⟩, fs)

/-- Modelled from the spec: handleDiscover answers status OK with the
literal seven ASCII bytes of "tuffpad" and performs no storage operation;
the handler is exercised by the repository's TestDiscoverCommand and fixed
byte for byte in the protocol document, but its code is not among the
inspected files. -/
def handleDiscover (fs : FS) : Response × FS :=
  (⟨StatusOK, [0x74, 0x75, 0x66, 0x66, 0x70, 0x61, 0x64]⟩, fs)

/-- Handler.Handle (protocol.go lines 198-223): dispatch on the command
byte; unknown commands answer InvalidCmd. The storage state is threaded
explicitly. The 0x7F case is modelled from the spec (see handleDiscover). -/
def Handle (o : Oracle) (fs : FS) (frame : Frame) : Response × FS :=
  match frame.Cmd with
  | 0x08 => handlePing fs frame.Payload
  | 0x01 => handleGetDeviceConfig fs
  | 0x02 => handleSetDeviceConfig o fs frame.Payload
  | 0x03 => handleGetProfile fs frame.Payload
  | 0x04 => handleSetProfile o fs frame.Payload
  | 0x05 => handleDeleteProfile fs frame.Payload
  | 0x06 => handleListProfiles fs
  | 0x07 => handleGetStorageStats fs
  | 0x09 => handleFactoryReset fs
  | 0x10 => handleGetVersion fs
  | 0x7F => handleDiscover fs
  | _ => (⟨StatusInvalidCmd, []⟩, fs)

/-- One iteration of Serial.Handle's loop (serial package): a frame error
produces no dispatch and no response; otherwise the frame is dispatched and
its response returned together with the unread bytes. -/
def serialStep (o : Oracle) (fs : FS) (s : List Nat) :
    Option (Response × FS × List Nat) :=
  match ReadFrame s with
  | .error _ => none
  | .ok (frame, rest) =>
    let out := Handle o fs frame
    some (out.1, out.2, rest)

/-- The directory an all-success atomicWrite leaves behind: remove stale
temp, create temp empty, write the data, remove the old target, rename. -/
def awResult (d : List (FName × List Nat)) (name : FName) (data : List Nat) :
    List (FName × List Nat) :=
  dirPut (dirDelForce (dirDelForce (dirPut (dirPut (dirDelForce d
    (name ++ dotTmp)) (name ++ dotTmp) []) (name ++ dotTmp) data) name)
    (name ++ dotTmp)) name data

/-! ## Claim C7: sequences of storage operations -/

/-- A storage operation of claim C7: a SaveProfile or a DeleteProfile. -/
inductive StoreOp where
  | save (slot : Nat) (p : Profile)
  | del (slot : Nat)
deriving Repr

/-- The slot an operation addresses. -/
def StoreOp.slot : StoreOp → Nat
  | .save s _ => s
  | .del s => s

/-- Run a sequence of operations, each required to succeed, under the
all-success oracle: a save always succeeds; a delete succeeds exactly when
the slot's file exists. -/
def runOps (fs : FS) : List StoreOp → Option FS
  | [] => some fs
  | .save slot p :: rest =>
    match Manager.SaveProfile Oracle.ok fs slot p with
    | (.ok _, fs2, _) => runOps fs2 rest
    | (.error _, _, _) => none
  | .del slot :: rest =>
    match Manager.DeleteProfile fs slot with
    | (.ok _, fs2) => runOps fs2 rest
    | (.error _, _) => none

/-- The profiles directory of every reachable state: file names are
pairwise distinct and every one is the canonical name of a slot. -/
def CanonDir (d : List (FName × List Nat)) : Prop :=
  (d.map Prod.fst).Nodup ∧
  ∀ k ∈ d.map Prod.fst, ∃ s, s ≤ 255 ∧ k = profileFileName s

/-- All 256 slots saved once each, a legal sequence of successful saves. -/
def allSlotsOps : List StoreOp :=
  (List.range 256).map (fun s => StoreOp.save s ⟨0, 0, 0, 0, 0, 0, 0, [], []⟩)

/-! ## Arithmetic facts about the codecs -/

theorem lor_shiftLeft_eq_add (k : Nat) :
    ∀ a b : Nat, a < 2 ^ k → a ||| (b <<< k) = a + b * 2 ^ k := by
  induction k with
  | zero =>
    intro a b h
    have ha : a = 0 := by omega
    subst ha
    simp [Nat.shiftLeft_zero]
  | succ k ih =>
    intro a b h
    have hd : Nat.bit (a.testBit 0) (a >>> 1) = a :=
      Nat.bit_testBit_zero_shiftRight_one a
    have hb : b <<< (k + 1) = Nat.bit false (b <<< k) := by
      rw [Nat.shiftLeft_succ, Nat.bit_val]
      simp
    have h1 : a >>> 1 < 2 ^ k := by
      rw [Nat.shiftRight_one]
      have hp : 2 ^ (k + 1) = 2 * 2 ^ k := by ring
      omega
    have hsplit : 2 * (a >>> 1) + (a.testBit 0).toNat = a := by
      have hv := Nat.bit_val (a.testBit 0) (a >>> 1)
      rw [hd] at hv
      omega
    have key : a ||| (b <<< (k + 1))
        = Nat.bit (a.testBit 0) ((a >>> 1) ||| (b <<< k)) := by
      conv_lhs => rw [← hd, hb]
      rw [Nat.lor_bit, Bool.or_false]
    rw [key, Nat.bit_val, ih _ b h1]
    calc 2 * (a >>> 1 + b * 2 ^ k) + (a.testBit 0).toNat
        = 2 * (a >>> 1) + (a.testBit 0).toNat + b * 2 ^ (k + 1) := by ring
      _ = a + b * 2 ^ (k + 1) := by rw [hsplit]

theorem u16le_eq_add {lo hi : Nat} (hlo : lo < 256) (hhi : hi < 256) :
    u16le lo hi = lo + 256 * hi := by
  unfold u16le
  rw [Nat.mod_eq_of_lt hlo, Nat.mod_eq_of_lt hhi]
  have h := lor_shiftLeft_eq_add 8 lo hi (by omega)
  norm_num at h
  omega

theorem u16le_lt (lo hi : Nat) : u16le lo hi < 65536 := by
  unfold u16le
  have h1 : lo % 256 < 256 := Nat.mod_lt _ (by omega)
  have h2 : hi % 256 < 256 := Nat.mod_lt _ (by omega)
  have h := lor_shiftLeft_eq_add 8 (lo % 256) (hi % 256) (by omega)
  norm_num at h
  omega

theorem putU16_u16le {lo hi : Nat} (hlo : lo < 256) (hhi : hi < 256) :
    putU16 (u16le lo hi) = [lo, hi] := by
  rw [u16le_eq_add hlo hhi]
  unfold putU16
  have h8 : (lo + 256 * hi) >>> 8 = (lo + 256 * hi) / 256 := by
    rw [Nat.shiftRight_eq_div_pow]
  have e1 : (lo + 256 * hi) % 256 = lo := by omega
  have e2 : (lo + 256 * hi) / 256 % 256 = hi := by omega
  rw [e1, h8, e2]

theorem u16le_putU16 {v : Nat} (hv : v < 65536) :
    u16le (v % 256) ((v >>> 8) % 256) = v := by
  have h8 : v >>> 8 = v / 256 := by
    rw [Nat.shiftRight_eq_div_pow]
  rw [u16le_eq_add (Nat.mod_lt _ (by omega)) (Nat.mod_lt _ (by omega)), h8]
  omega

theorem crcShift_lt (crc : Nat) : crcShift crc < 65536 := by
  unfold crcShift
  split
  · have h1 : (crc <<< 1) % 65536 < 65536 := Nat.mod_lt _ (by omega)
    have h16 : (65536 : Nat) = 2 ^ 16 := by norm_num
    rw [h16] at h1 ⊢
    exact Nat.xor_lt_two_pow h1 (by norm_num)
  · exact Nat.mod_lt _ (by omega)

theorem crcRounds_lt (n crc : Nat) (h : 0 < n) : crcRounds n crc < 65536 := by
  induction n generalizing crc with
  | zero => omega
  | succ n ih =>
    cases n with
    | zero => exact crcShift_lt crc
    | succ m => exact ih (crcShift crc) (Nat.succ_pos m)

theorem crcByteStep_lt (crc b : Nat) : crcByteStep crc b < 65536 :=
  crcRounds_lt 8 _ (by omega)

theorem calcCRC_lt (data : List Nat) : calcCRC data < 65536 := by
  unfold calcCRC
  induction data using List.reverseRecOn with
  | nil => norm_num
  | append_singleton l b _ =>
    rw [List.foldl_append]
    exact crcByteStep_lt _ _

/-! ## The frame-codec round trip -/

/-- For claim C6. For every frame whose payload is at most 4096 bytes long,
reading back the bytes WriteFrame produced succeeds, yields the same command
and payload, and consumes the whole stream. -/
theorem readFrame_writeFrame (f : Frame) (hlen : f.Payload.length ≤ 4096) :
    ReadFrame (WriteFrame f) = .ok (f, []) := by
  obtain ⟨cmd, payload⟩ := f
  change payload.length ≤ 4096 at hlen
  have hsmall : payload.length < 65536 := by omega
  have hmod : payload.length % 65536 = payload.length := Nat.mod_eq_of_lt hsmall
  set l0 := payload.length % 256 with hl0
  set l1 := (payload.length >>> 8) % 256 with hl1
  set C := calcCRC (cmd :: l0 :: l1 :: payload) with hCdef
  have hw : WriteFrame ⟨cmd, payload⟩
      = SyncByte :: cmd :: l0 :: l1 :: (payload ++ [C % 256, (C >>> 8) % 256]) := by
    simp [WriteFrame, putU16, hmod]
  rw [hw]
  have hdec : u16le l0 l1 = payload.length := u16le_putU16 hsmall
  have htake : (payload ++ [C % 256, (C >>> 8) % 256]).take payload.length
      = payload := List.take_left' rfl
  have hdrop : (payload ++ [C % 256, (C >>> 8) % 256]).drop payload.length
      = [C % 256, (C >>> 8) % 256] := List.drop_left' rfl
  have hrx : u16le (C % 256) ((C >>> 8) % 256) = C := u16le_putU16 (calcCRC_lt _)
  have h4096 : ¬ 4096 < payload.length := by omega
  have hroom : ¬ (payload ++ [C % 256, (C >>> 8) % 256]).length < payload.length := by
    simp
  simp only [ReadFrame, hdec, htake, hdrop, hrx]
  simp [htake, hCdef, hlen]

/-! ## Round-trip facts about the config codec -/

theorem u32le_eq_add {b0 b1 b2 b3 : Nat} (h0 : b0 < 256) (h1 : b1 < 256)
    (h2 : b2 < 256) (h3 : b3 < 256) :
    u32le b0 b1 b2 b3 = b0 + 256 * b1 + 65536 * b2 + 16777216 * b3 := by
  unfold u32le
  rw [Nat.mod_eq_of_lt h0, Nat.mod_eq_of_lt h1, Nat.mod_eq_of_lt h2,
    Nat.mod_eq_of_lt h3]
  have e1 := lor_shiftLeft_eq_add 8 b0 b1 (by omega)
  norm_num at e1
  have e2 := lor_shiftLeft_eq_add 16 (b0 ||| b1 <<< 8) b2 (by norm_num; omega)
  norm_num at e2
  have e3 := lor_shiftLeft_eq_add 24 (b0 ||| b1 <<< 8 ||| b2 <<< 16) b3
    (by norm_num; omega)
  norm_num at e3
  omega

theorem putU32_u32le {b0 b1 b2 b3 : Nat} (h0 : b0 < 256) (h1 : b1 < 256)
    (h2 : b2 < 256) (h3 : b3 < 256) :
    putU32 (u32le b0 b1 b2 b3) = [b0, b1, b2, b3] := by
  rw [u32le_eq_add h0 h1 h2 h3]
  unfold putU32
  have s8 : ∀ v : Nat, v >>> 8 = v / 256 := fun v => by
    rw [Nat.shiftRight_eq_div_pow]
  have s16 : ∀ v : Nat, v >>> 16 = v / 65536 := fun v => by
    rw [Nat.shiftRight_eq_div_pow]
  have s24 : ∀ v : Nat, v >>> 24 = v / 16777216 := fun v => by
    rw [Nat.shiftRight_eq_div_pow]
  rw [s8, s16, s24]
  have e0 : (b0 + 256 * b1 + 65536 * b2 + 16777216 * b3) % 256 = b0 := by omega
  have e1 : (b0 + 256 * b1 + 65536 * b2 + 16777216 * b3) / 256 % 256 = b1 := by
    omega
  have e2 : (b0 + 256 * b1 + 65536 * b2 + 16777216 * b3) / 65536 % 256 = b2 := by
    omega
  have e3 : (b0 + 256 * b1 + 65536 * b2 + 16777216 * b3) / 16777216 % 256 = b3 := by
    omega
  rw [e0, e1, e2, e3]

theorem u16le_mod_fst {lo hi : Nat} (hlo : lo < 256) (hhi : hi < 256) :
    u16le lo hi % 256 = lo := by
  rw [u16le_eq_add hlo hhi]
  omega

theorem u16le_shift_snd {lo hi : Nat} (hlo : lo < 256) (hhi : hi < 256) :
    (u16le lo hi >>> 8) % 256 = hi := by
  rw [u16le_eq_add hlo hhi, Nat.shiftRight_eq_div_pow]
  norm_num
  omega

theorem serBinding_parseBinding (b : List Nat) (hlen : b.length = 8)
    (hb : ∀ x ∈ b, x < 256) : serBinding (parseBinding b) = b := by
  rcases b with _ | ⟨a0, b⟩; · simp at hlen
  rcases b with _ | ⟨a1, b⟩; · simp at hlen
  rcases b with _ | ⟨a2, b⟩; · simp at hlen
  rcases b with _ | ⟨a3, b⟩; · simp at hlen
  rcases b with _ | ⟨a4, b⟩; · simp at hlen
  rcases b with _ | ⟨a5, b⟩; · simp at hlen
  rcases b with _ | ⟨a6, b⟩; · simp at hlen
  rcases b with _ | ⟨a7, b⟩; · simp at hlen
  have hnil : b = [] := by
    simp only [List.length_cons] at hlen
    exact List.length_eq_zero.mp (by omega)
  subst hnil
  have g0 : a0 < 256 := hb a0 (by simp)
  have g2 : a2 < 256 := hb a2 (by simp)
  have g3 : a3 < 256 := hb a3 (by simp)
  have g4 : a4 < 256 := hb a4 (by simp)
  simp only [serBinding, parseBinding, List.getD]
  simp [u16le_mod_fst g3 g4, u16le_shift_snd g3 g4,
    Nat.mod_eq_of_lt g0, Nat.mod_eq_of_lt g2]

theorem parseBindings_length (n : Nat) (l : List Nat) :
    (parseBindings n l).length = n := by
  induction n generalizing l with
  | zero => simp [parseBindings]
  | succ n ih => simp [parseBindings, ih]

theorem flatMap_serBinding_parseBindings (n : Nat) :
    ∀ l : List Nat, l.length = 8 * n → (∀ x ∈ l, x < 256) →
      (parseBindings n l).flatMap serBinding = l := by
  induction n with
  | zero =>
    intro l hlen _
    have : l = [] := List.length_eq_zero.mp (by omega)
    simp [this, parseBindings]
  | succ n ih =>
    intro l hlen hb
    have htl : (l.take 8).length = 8 := by
      simp [List.length_take]
      omega
    have hdl : (l.drop 8).length = 8 * n := by
      simp [List.length_drop]
      omega
    rw [parseBindings, List.flatMap_cons,
      serBinding_parseBinding (l.take 8) htl
        (fun x hx => hb x (List.mem_of_mem_take hx)),
      ih (l.drop 8) hdl (fun x hx => hb x (List.mem_of_mem_drop hx)),
      List.take_append_drop]

theorem padTo_eq_self {α : Type} (n : Nat) (z : α) (l : List α)
    (h : l.length = n) : padTo n z l = l := by
  unfold padTo
  exact List.take_left' h

/-- Serializing the profile parsed from 286 valid bytes reproduces exactly
those bytes. -/
theorem marshal_profileOf (data : List Nat) (hlen : data.length = 286)
    (hb : ∀ x ∈ data, x < 256) : (profileOf data).marshalBinary = data := by
  rcases data with _ | ⟨a0, data⟩; · simp at hlen
  rcases data with _ | ⟨a1, data⟩; · simp at hlen
  rcases data with _ | ⟨a2, data⟩; · simp at hlen
  rcases data with _ | ⟨a3, data⟩; · simp at hlen
  rcases data with _ | ⟨a4, data⟩; · simp at hlen
  rcases data with _ | ⟨a5, data⟩; · simp at hlen
  rcases data with _ | ⟨a6, data⟩; · simp at hlen
  rcases data with _ | ⟨a7, data⟩; · simp at hlen
  rcases data with _ | ⟨a8, data⟩; · simp at hlen
  rcases data with _ | ⟨a9, data⟩; · simp at hlen
  rcases data with _ | ⟨a10, data⟩; · simp at hlen
  rcases data with _ | ⟨a11, data⟩; · simp at hlen
  rcases data with _ | ⟨a12, data⟩; · simp at hlen
  rcases data with _ | ⟨a13, data⟩; · simp at hlen
  simp only [List.length_cons] at hlen
  have hrest : data.length = 272 := by omega
  have g0 : a0 < 256 := hb a0 (by simp)
  have g1 : a1 < 256 := hb a1 (by simp)
  have g2 : a2 < 256 := hb a2 (by simp)
  have g3 : a3 < 256 := hb a3 (by simp)
  have g4 : a4 < 256 := hb a4 (by simp)
  have g5 : a5 < 256 := hb a5 (by simp)
  have g6 : a6 < 256 := hb a6 (by simp)
  have g7 : a7 < 256 := hb a7 (by simp)
  have g8 : a8 < 256 := hb a8 (by simp)
  have g9 : a9 < 256 := hb a9 (by simp)
  have hname : ((data.take 16).length) = 16 := by
    simp [List.length_take]
    omega
  have hbind : ((data.drop 16).length) = 8 * 32 := by
    simp [List.length_drop]
    omega
  simp only [profileOf, Profile.marshalBinary, List.getD_cons_zero,
    List.getD_cons_succ, List.drop_succ_cons, List.drop_zero]
  rw [putU16_u16le g0 g1, putU32_u32le g2 g3 g4 g5, putU32_u32le g6 g7 g8 g9,
    padTo_eq_self 16 0 (data.take 16) hname,
    padTo_eq_self 32 KeyBinding.zero _ (parseBindings_length 32 _),
    flatMap_serBinding_parseBindings 32 (data.drop 16) hbind
      (fun x hx => hb x (by simp [List.mem_of_mem_drop hx]))]
  simp [List.take_append_drop]

/-- Serializing the device config parsed from 12 valid bytes reproduces
exactly those bytes. -/
theorem marshal_deviceCfgOf (data : List Nat) (hlen : data.length = 12)
    (hb : ∀ x ∈ data, x < 256) : (deviceCfgOf data).marshalBinary = data := by
  rcases data with _ | ⟨a0, data⟩; · simp at hlen
  rcases data with _ | ⟨a1, data⟩; · simp at hlen
  rcases data with _ | ⟨a2, data⟩; · simp at hlen
  rcases data with _ | ⟨a3, data⟩; · simp at hlen
  rcases data with _ | ⟨a4, data⟩; · simp at hlen
  rcases data with _ | ⟨a5, data⟩; · simp at hlen
  rcases data with _ | ⟨a6, data⟩; · simp at hlen
  rcases data with _ | ⟨a7, data⟩; · simp at hlen
  rcases data with _ | ⟨a8, data⟩; · simp at hlen
  rcases data with _ | ⟨a9, data⟩; · simp at hlen
  rcases data with _ | ⟨a10, data⟩; · simp at hlen
  rcases data with _ | ⟨a11, data⟩; · simp at hlen
  have hnil : data = [] := by
    simp only [List.length_cons] at hlen
    exact List.length_eq_zero.mp (by omega)
  subst hnil
  have g0 : a0 < 256 := hb a0 (by simp)
  have g1 : a1 < 256 := hb a1 (by simp)
  have g2 : a2 < 256 := hb a2 (by simp)
  have g3 : a3 < 256 := hb a3 (by simp)
  have g4 : a4 < 256 := hb a4 (by simp)
  have g5 : a5 < 256 := hb a5 (by simp)
  have g10 : a10 < 256 := hb a10 (by simp)
  have g11 : a11 < 256 := hb a11 (by simp)
  simp only [deviceCfgOf, DeviceConfig.marshalBinary, List.getD_cons_zero,
    List.getD_cons_succ]
  rw [putU16_u16le g0 g1, putU32_u32le g2 g3 g4 g5, putU16_u16le g10 g11]
  simp

/-- Overriding the version field changes exactly the first two serialized
bytes of a profile. -/
theorem profile_marshal_setVersion (p : Profile) (v : Nat) :
    ({ p with Version := v } : Profile).marshalBinary
      = putU16 v ++ p.marshalBinary.drop 2 := by
  simp [Profile.marshalBinary, putU16]

/-- Overriding the version field changes exactly the first two serialized
bytes of a device config. -/
theorem device_marshal_setVersion (d : DeviceConfig) (v : Nat) :
    ({ d with Version := v } : DeviceConfig).marshalBinary
      = putU16 v ++ d.marshalBinary.drop 2 := by
  simp [DeviceConfig.marshalBinary, putU16]

theorem flatMap_serBinding_length (l : List KeyBinding) :
    (l.flatMap serBinding).length = 8 * l.length := by
  induction l with
  | nil => simp
  | cons kb l ih => simp [serBinding, ih]; omega

theorem padTo_length {α : Type} (n : Nat) (z : α) (l : List α) :
    (padTo n z l).length = n := by
  simp [padTo, List.length_take]

theorem profile_marshal_length (p : Profile) : p.marshalBinary.length = 286 := by
  unfold Profile.marshalBinary
  rw [List.length_append, List.length_append, List.length_append,
    List.length_append, List.length_append, flatMap_serBinding_length,
    padTo_length, padTo_length]
  simp [putU16, putU32]

theorem device_marshal_length (d : DeviceConfig) :
    d.marshalBinary.length = 12 := by
  simp [DeviceConfig.marshalBinary, putU16, putU32]

/-! ## Facts about file names and their decimal slot numbers -/

theorem digitsVal_append_digit (l : List Nat) (c : Nat) :
    digitsVal (l ++ [c]) = digitsVal l * 10 + (c - 48) := by
  simp [digitsVal, List.foldl_append]

theorem itoaCore_spec (fuel : Nat) :
    ∀ n, n < fuel → digitsVal (itoaCore fuel n) = n ∧ itoaCore fuel n ≠ [] ∧
      ∀ c ∈ itoaCore fuel n, 48 ≤ c ∧ c ≤ 57 := by
  induction fuel with
  | zero => intro n h; omega
  | succ fuel ih =>
    intro n h
    by_cases h10 : n < 10
    · refine ⟨?_, by simp [itoaCore, h10], ?_⟩
      · simp [itoaCore, h10, digitsVal]
      · intro c hc
        simp [itoaCore, h10] at hc
        omega
    · obtain ⟨hval, hne, hdig⟩ := ih (n / 10) (by omega)
      refine ⟨?_, by simp [itoaCore, h10], ?_⟩
      · rw [itoaCore]
        rw [if_neg h10, digitsVal_append_digit, hval]
        omega
      · intro c hc
        rw [itoaCore, if_neg h10] at hc
        rcases List.mem_append.mp hc with hc | hc
        · exact hdig c hc
        · simp at hc
          omega

theorem itoa_val (n : Nat) : digitsVal (itoa n) = n :=
  (itoaCore_spec (n + 1) n (by omega)).1

theorem itoa_ne_nil (n : Nat) : itoa n ≠ [] :=
  (itoaCore_spec (n + 1) n (by omega)).2.1

theorem itoa_digits (n : Nat) : ∀ c ∈ itoa n, 48 ≤ c ∧ c ≤ 57 :=
  (itoaCore_spec (n + 1) n (by omega)).2.2

theorem parseUint8_itoa (n : Nat) (h : n ≤ 255) :
    parseUint8 (itoa n) = some n := by
  unfold parseUint8
  rw [if_neg (itoa_ne_nil n)]
  have hall : (itoa n).all (fun c => decide (48 ≤ c ∧ c ≤ 57)) = true := by
    rw [List.all_eq_true]
    intro c hc
    exact decide_eq_true (itoa_digits n c hc)
  rw [if_pos hall, itoa_val, if_pos (by omega)]

theorem itoa_injective {m n : Nat} (h : itoa m = itoa n) : m = n := by
  have hm := itoa_val m
  rw [h, itoa_val] at hm
  omega

theorem profileFileName_injective {m n : Nat}
    (h : profileFileName m = profileFileName n) : m = n :=
  itoa_injective (List.append_cancel_right h)

theorem trimSuffix_profileFileName (s : Nat) :
    trimSuffix (profileFileName s) dotBin = itoa s := by
  unfold trimSuffix profileFileName
  rw [if_pos (List.isSuffixOf_iff_suffix.mpr (List.suffix_append _ _))]
  have hlen : (itoa s ++ dotBin).length - dotBin.length = (itoa s).length := by
    simp
  rw [hlen]
  exact List.take_left' rfl

theorem dotTmp_not_suffix_profileFileName (s : Nat) :
    ¬ dotTmp.isSuffixOf (profileFileName s) = true := by
  intro h
  obtain ⟨t, ht⟩ := List.isSuffixOf_iff_suffix.mp h
  unfold profileFileName at ht
  have hlen : t.length = (itoa s).length := by
    have := congrArg List.length ht
    simp [dotTmp, dotBin] at this
    omega
  have : dotTmp = dotBin := by
    have h2 : t ++ dotTmp = itoa s ++ dotBin := ht
    have := List.append_inj h2 hlen
    exact this.2
  simp [dotTmp, dotBin] at this

theorem parseProfileEntry_profileFileName (s : Nat) (h : s ≤ 255) :
    parseProfileEntry (profileFileName s) = some s := by
  unfold parseProfileEntry
  rw [if_neg (by
    simp only [not_not]
    exact List.isSuffixOf_iff_suffix.mpr
      (by unfold profileFileName; exact List.suffix_append _ _))]
  rw [if_neg (dotTmp_not_suffix_profileFileName s), trimSuffix_profileFileName]
  exact parseUint8_itoa s h

theorem profileFileName_ne_append_dotTmp (s : Nat) (name : FName) :
    profileFileName s ≠ name ++ dotTmp := by
  intro h
  have h1 : (profileFileName s).getLast? = some 110 := by
    unfold profileFileName
    rw [List.getLast?_append]
    simp [dotBin]
  have h2 : (name ++ dotTmp).getLast? = some 112 := by
    rw [List.getLast?_append]
    simp [dotTmp]
  rw [h] at h1
  rw [h1] at h2
  simp at h2

theorem fname_ne_append_dotTmp (name : FName) : name ≠ name ++ dotTmp := by
  intro h
  have := congrArg List.length h
  simp [dotTmp] at this

/-! ## Facts about the directory model -/

theorem dirGet_dirPut_self (d : List (FName × List Nat)) (k : FName)
    (v : List Nat) : dirGet (dirPut d k v) k = some v := by
  induction d with
  | nil => simp [dirPut, dirGet]
  | cons e d ih =>
    by_cases h : e.1 = k
    · simp [dirPut, dirGet, h]
    · simp [dirPut, dirGet, h, ih]

theorem dirGet_dirPut_ne (d : List (FName × List Nat)) (k q : FName)
    (v : List Nat) (h : q ≠ k) : dirGet (dirPut d k v) q = dirGet d q := by
  have hkq : ¬ (k = q) := fun hh => h hh.symm
  induction d with
  | nil => simp [dirPut, dirGet, hkq]
  | cons e d ih =>
    by_cases he : e.1 = k
    · subst he
      simp [dirPut, dirGet, hkq]
    · by_cases hq : e.1 = q
      · simp [dirPut, dirGet, he, hq, h]
      · simp [dirPut, dirGet, he, hq, ih]

theorem dirDelForce_cons (e : FName × List Nat) (d : List (FName × List Nat))
    (k : FName) : dirDelForce (e :: d) k
      = if e.1 = k then d else e :: dirDelForce d k := by
  by_cases he : e.1 = k
  · simp [dirDelForce, dirDel, he]
  · cases h : dirDel d k with
    | none => simp [dirDelForce, dirDel, he, h]
    | some x => simp [dirDelForce, dirDel, he, h]

theorem dirGet_dirDelForce_ne (d : List (FName × List Nat)) (k q : FName)
    (h : q ≠ k) : dirGet (dirDelForce d k) q = dirGet d q := by
  have hkq : ¬ (k = q) := fun hh => h hh.symm
  induction d with
  | nil => simp [dirDelForce, dirDel]
  | cons e d ih =>
    rw [dirDelForce_cons]
    by_cases he : e.1 = k
    · subst he
      simp [dirGet, hkq]
    · by_cases hq : e.1 = q
      · simp [he, dirGet, hq, h]
      · simp [he, dirGet, hq, ih]

theorem dirDelForce_sublist (d : List (FName × List Nat)) (k : FName) :
    (dirDelForce d k).Sublist d := by
  induction d with
  | nil => simp [dirDelForce, dirDel]
  | cons e d ih =>
    rw [dirDelForce_cons]
    by_cases he : e.1 = k
    · simp [he]
    · simpa [he] using ih.cons₂ e

theorem mem_keys_iff_dirGet (d : List (FName × List Nat)) (k : FName) :
    k ∈ d.map Prod.fst ↔ (dirGet d k).isSome := by
  induction d with
  | nil => simp [dirGet]
  | cons e d ih =>
    by_cases he : e.1 = k
    · simp [dirGet, he]
    · have hke : ¬ (k = e.1) := fun hh => he hh.symm
      simp [dirGet, he, ih, hke]

theorem dirGet_dirDelForce_self (d : List (FName × List Nat)) (k : FName)
    (hnd : (d.map Prod.fst).Nodup) : dirGet (dirDelForce d k) k = none := by
  induction d with
  | nil => simp [dirDelForce, dirDel, dirGet]
  | cons e d ih =>
    rw [dirDelForce_cons]
    simp only [List.map_cons, List.nodup_cons] at hnd
    by_cases he : e.1 = k
    · rw [if_pos he]
      subst he
      cases h : dirGet d e.1 with
      | none => rfl
      | some v =>
        exact absurd ((mem_keys_iff_dirGet d e.1).mpr (by simp [h])) hnd.1
    · rw [if_neg he]
      simp [dirGet, he, ih hnd.2]

theorem keys_dirPut_subset (d : List (FName × List Nat)) (k : FName)
    (v : List Nat) :
    ∀ q ∈ (dirPut d k v).map Prod.fst, q = k ∨ q ∈ d.map Prod.fst := by
  induction d with
  | nil => simp [dirPut]
  | cons e d ih =>
    intro q hq
    by_cases he : e.1 = k
    · simp [dirPut, he] at hq
      rcases hq with hq | hq
      · exact Or.inl hq
      · exact Or.inr (by simp [hq])
    · simp [dirPut, he] at hq
      rcases hq with hq | hq
      · exact Or.inr (by simp [hq])
      · rcases ih q (by simpa using hq) with h | h
        · exact Or.inl h
        · exact Or.inr (by simp [h])

theorem nodup_keys_dirPut (d : List (FName × List Nat)) (k : FName)
    (v : List Nat) (hnd : (d.map Prod.fst).Nodup) :
    ((dirPut d k v).map Prod.fst).Nodup := by
  induction d with
  | nil => simp [dirPut]
  | cons e d ih =>
    simp only [List.map_cons, List.nodup_cons] at hnd
    by_cases he : e.1 = k
    · subst he
      rw [show dirPut (e :: d) e.1 v = (e.1, v) :: d from by
        simp [dirPut]]
      simp only [List.map_cons, List.nodup_cons]
      exact hnd
    · simp only [dirPut, if_neg he, List.map_cons, List.nodup_cons]
      constructor
      · intro hmem
        rcases keys_dirPut_subset d k v e.1 hmem with h | h
        · exact he h
        · exact hnd.1 h
      · exact ih hnd.2

theorem nodup_keys_dirDelForce (d : List (FName × List Nat)) (k : FName)
    (hnd : (d.map Prod.fst).Nodup) :
    ((dirDelForce d k).map Prod.fst).Nodup :=
  ((dirDelForce_sublist d k).map Prod.fst).nodup hnd

theorem keys_dirDelForce_subset (d : List (FName × List Nat)) (k : FName) :
    ∀ q ∈ (dirDelForce d k).map Prod.fst, q ∈ d.map Prod.fst := by
  intro q hq
  exact ((dirDelForce_sublist d k).map Prod.fst).mem hq

/-! ## Behaviour of atomicWrite -/

theorem temp_ne_name (name : FName) : name ++ dotTmp ≠ name :=
  fun h => fname_ne_append_dotTmp name h.symm

theorem atomicWrite_ok_eq (d : List (FName × List Nat)) (name : FName)
    (data : List Nat) :
    atomicWrite Oracle.ok d name data = (.ok (), awResult d name data) := by
  have htemp : dirGet (dirDelForce (dirPut (dirPut (dirDelForce d
      (name ++ dotTmp)) (name ++ dotTmp) []) (name ++ dotTmp) data) name)
      (name ++ dotTmp) = some data := by
    rw [dirGet_dirDelForce_ne _ _ _ (temp_ne_name name)]
    exact dirGet_dirPut_self _ _ _
  simp [atomicWrite, Oracle.ok, htemp, awResult]

theorem awResult_get_self (d : List (FName × List Nat)) (name : FName)
    (data : List Nat) : dirGet (awResult d name data) name = some data :=
  dirGet_dirPut_self _ _ _

theorem awResult_get_other (d : List (FName × List Nat)) (name : FName)
    (data : List Nat) (q : FName) (h1 : q ≠ name) (h2 : q ≠ name ++ dotTmp) :
    dirGet (awResult d name data) q = dirGet d q := by
  unfold awResult
  rw [dirGet_dirPut_ne _ _ _ _ h1, dirGet_dirDelForce_ne _ _ _ h2,
    dirGet_dirDelForce_ne _ _ _ h1, dirGet_dirPut_ne _ _ _ _ h2,
    dirGet_dirPut_ne _ _ _ _ h2, dirGet_dirDelForce_ne _ _ _ h2]

theorem awResult_nodup (d : List (FName × List Nat)) (name : FName)
    (data : List Nat) (h : (d.map Prod.fst).Nodup) :
    ((awResult d name data).map Prod.fst).Nodup := by
  unfold awResult
  exact nodup_keys_dirPut _ _ _ (nodup_keys_dirDelForce _ _
    (nodup_keys_dirDelForce _ _ (nodup_keys_dirPut _ _ _
    (nodup_keys_dirPut _ _ _ (nodup_keys_dirDelForce _ _ h)))))

theorem awResult_get_temp (d : List (FName × List Nat)) (name : FName)
    (data : List Nat) (h : (d.map Prod.fst).Nodup) :
    dirGet (awResult d name data) (name ++ dotTmp) = none := by
  unfold awResult
  rw [dirGet_dirPut_ne _ _ _ _ (temp_ne_name name)]
  exact dirGet_dirDelForce_self _ _ (nodup_keys_dirDelForce _ _
    (nodup_keys_dirPut _ _ _ (nodup_keys_dirPut _ _ _
    (nodup_keys_dirDelForce _ _ h))))

theorem awResult_keys_subset (d : List (FName × List Nat)) (name : FName)
    (data : List Nat) (hnd : (d.map Prod.fst).Nodup) :
    ∀ q ∈ (awResult d name data).map Prod.fst,
      q = name ∨ q ∈ d.map Prod.fst := by
  intro q hq
  by_cases ht : q = name ++ dotTmp
  · subst ht
    have := (mem_keys_iff_dirGet _ _).mp hq
    rw [awResult_get_temp d name data hnd] at this
    simp at this
  · unfold awResult at hq
    rcases keys_dirPut_subset _ _ _ q hq with h | h
    · exact Or.inl h
    · have h2 := keys_dirDelForce_subset _ _ q h
      have h3 := keys_dirDelForce_subset _ _ q h2
      rcases keys_dirPut_subset _ _ _ q h3 with h4 | h4
      · exact absurd h4 ht
      · rcases keys_dirPut_subset _ _ _ q h4 with h5 | h5
        · exact absurd h5 ht
        · exact Or.inr (keys_dirDelForce_subset _ _ q h5)

/-- For claim C9. Whenever creating, writing, syncing or closing the
temporary file fails - every fallible step before the final rename -
atomicWrite returns the error, the temporary file is gone, and the entry at
the target name is exactly what it was before the call. -/
theorem atomicWrite_prerename_failure (o : Oracle)
    (d : List (FName × List Nat)) (name : FName) (data : List Nat)
    (hnd : (d.map Prod.fst).Nodup)
    (hfail : o.createFails = true ∨ o.writeFails = true ∨
      o.syncFails = true ∨ o.closeFails = true) :
    (atomicWrite o d name data).1 = .error .ioErr ∧
    dirGet (atomicWrite o d name data).2 name = dirGet d name ∧
    dirGet (atomicWrite o d name data).2 (name ++ dotTmp) = none := by
  have hn1 : name ≠ name ++ dotTmp := fname_ne_append_dotTmp name
  cases hc : o.createFails with
  | true =>
    have hred : (atomicWrite o d name data).2
        = dirDelForce d (name ++ dotTmp) := by
      simp [atomicWrite, hc]
    refine ⟨by simp [atomicWrite, hc], ?_, ?_⟩
    · rw [hred]
      exact dirGet_dirDelForce_ne _ _ _ hn1
    · rw [hred]
      exact dirGet_dirDelForce_self _ _ hnd
  | false =>
    have hnd1 : (((dirPut (dirDelForce d (name ++ dotTmp)) (name ++ dotTmp)
        []).map Prod.fst)).Nodup :=
      nodup_keys_dirPut _ _ _ (nodup_keys_dirDelForce _ _ hnd)
    have hget1 : dirGet (dirPut (dirDelForce d (name ++ dotTmp))
        (name ++ dotTmp) []) name = dirGet d name := by
      rw [dirGet_dirPut_ne _ _ _ _ hn1]
      exact dirGet_dirDelForce_ne _ _ _ hn1
    cases hw : o.writeFails with
    | true =>
      have hred : (atomicWrite o d name data).2
          = dirDelForce (dirPut (dirDelForce d (name ++ dotTmp))
            (name ++ dotTmp) []) (name ++ dotTmp) := by
        simp [atomicWrite, hc, hw]
      refine ⟨by simp [atomicWrite, hc, hw], ?_, ?_⟩
      · rw [hred, dirGet_dirDelForce_ne _ _ _ hn1]
        exact hget1
      · rw [hred]
        exact dirGet_dirDelForce_self _ _ hnd1
    | false =>
      have hnd2 : ((dirPut (dirPut (dirDelForce d (name ++ dotTmp))
          (name ++ dotTmp) []) (name ++ dotTmp) data).map Prod.fst).Nodup :=
        nodup_keys_dirPut _ _ _ hnd1
      have hget2 : dirGet (dirPut (dirPut (dirDelForce d (name ++ dotTmp))
          (name ++ dotTmp) []) (name ++ dotTmp) data) name = dirGet d name := by
        rw [dirGet_dirPut_ne _ _ _ _ hn1]
        exact hget1
      cases hs : o.syncFails with
      | true =>
        have hred : (atomicWrite o d name data).2
            = dirDelForce (dirPut (dirPut (dirDelForce d (name ++ dotTmp))
              (name ++ dotTmp) []) (name ++ dotTmp) data) (name ++ dotTmp) := by
          simp [atomicWrite, hc, hw, hs]
        refine ⟨by simp [atomicWrite, hc, hw, hs], ?_, ?_⟩
        · rw [hred, dirGet_dirDelForce_ne _ _ _ hn1]
          exact hget2
        · rw [hred]
          exact dirGet_dirDelForce_self _ _ hnd2
      | false =>
        cases hcl : o.closeFails with
        | true =>
          have hred : (atomicWrite o d name data).2
              = dirDelForce (dirPut (dirPut (dirDelForce d (name ++ dotTmp))
                (name ++ dotTmp) []) (name ++ dotTmp) data) (name ++ dotTmp) := by
            simp [atomicWrite, hc, hw, hs, hcl]
          refine ⟨by simp [atomicWrite, hc, hw, hs, hcl], ?_, ?_⟩
          · rw [hred, dirGet_dirDelForce_ne _ _ _ hn1]
            exact hget2
          · rw [hred]
            exact dirGet_dirDelForce_self _ _ hnd2
        | false =>
          rw [hc, hw, hs, hcl] at hfail
          simp at hfail

/-- Witness for claim C9 at a concrete directory, name, data and an oracle
whose sync step fails. -/
theorem atomicWrite_prerename_failure_witness :
    (atomicWrite ⟨false, false, false, false, true, false, false⟩
      [([97], [1])] [98] [5, 6]).1 = .error .ioErr ∧
    dirGet (atomicWrite ⟨false, false, false, false, true, false, false⟩
      [([97], [1])] [98] [5, 6]).2 [98] = dirGet [([97], [1])] [98] ∧
    dirGet (atomicWrite ⟨false, false, false, false, true, false, false⟩
      [([97], [1])] [98] [5, 6]).2 ([98] ++ dotTmp) = none :=
  atomicWrite_prerename_failure ⟨false, false, false, false, true, false, false⟩
    [([97], [1])] [98] [5, 6] (by decide) (by decide)

/-! ## Small facts about indexing and deletion used by the claims -/

theorem getD_drop_one (l : List Nat) (i : Nat) :
    (l.drop 1).getD i 0 = l.getD (i + 1) 0 := by
  cases l with
  | nil => simp
  | cons a t => simp [List.getD_cons_succ]

theorem dirDel_none_iff (d : List (FName × List Nat)) (k : FName) :
    dirDel d k = none ↔ dirGet d k = none := by
  induction d with
  | nil => simp [dirDel, dirGet]
  | cons e d ih =>
    by_cases he : e.1 = k
    · simp [dirDel, dirGet, he]
    · simp [dirDel, dirGet, he, ih]

theorem dirDelForce_of_dirDel_some {d d2 : List (FName × List Nat)}
    {k : FName} (h : dirDel d k = some d2) : dirDelForce d k = d2 := by
  unfold dirDelForce
  rw [h]
  rfl

/-! ## Claim C1 -/

/-- Claim C1. A Discover frame (command 0x7F, empty payload) is answered
with status OK (0x00) and exactly the seven ASCII bytes of "tuffpad"
(74 75 66 66 70 61 64), and the storage state is untouched, so no storage
operation is performed. Settled against the spec-modelled handleDiscover. -/
theorem c1_discover_tuffpad (o : Oracle) (fs : FS) :
    Handle o fs ⟨CmdDiscover, []⟩
      = (⟨StatusOK, [0x74, 0x75, 0x66, 0x66, 0x70, 0x61, 0x64]⟩, fs) := rfl

/-! ## Claim C2 -/

/-- Claim C2 (the code diverges from it). With the device-config record
absent, fs.Open fails with the littlefs noEntry error, LoadDevice returns
that error unchanged - it has no translation to ErrProfileNotFound, unlike
LoadProfile - and handleGetDeviceConfig therefore answers the generic Error
status 0x01, never NotFound 0x04: the ErrProfileNotFound branch of
handleGetDeviceConfig is unreachable. -/
theorem c2_getDeviceConfig_absent_is_error (o : Oracle) (fs : FS)
    (habs : dirGet fs.config deviceFileName = none) :
    Handle o fs ⟨CmdGetDeviceConfig, []⟩ = (⟨StatusError, []⟩, fs) ∧
    StatusError ≠ StatusNotFound := by
  constructor
  · have e1 : Handle o fs ⟨CmdGetDeviceConfig, []⟩ = handleGetDeviceConfig fs :=
      rfl
    rw [e1]
    simp [handleGetDeviceConfig, Manager.LoadDevice, habs]
  · decide

/-- Witness for claim C2 on the freshly formatted filesystem. -/
theorem c2_getDeviceConfig_absent_witness :
    Handle Oracle.ok (FS.empty 262144) ⟨CmdGetDeviceConfig, []⟩
      = (⟨StatusError, []⟩, FS.empty 262144) ∧
    StatusError ≠ StatusNotFound :=
  c2_getDeviceConfig_absent_is_error Oracle.ok (FS.empty 262144) rfl

/-! ## Claim C3 -/

/-- Counterexample to claim C3 as stated: deleting the empty slot 0 on a
fresh store answers status Error 0x01, not OK, because fs.Remove of a
missing file fails with noEntry and handleDeleteProfile maps every delete
error to Error. -/
theorem c3_counterexample :
    (Handle Oracle.ok (FS.empty 262144) ⟨CmdDeleteProfile, [0]⟩).1.Status
      = StatusError ∧ StatusError ≠ StatusOK := by
  constructor
  · rfl
  · decide

/-- Claim C3 (amended). Handle of DeleteProfile on an empty slot returns
status Error 0x01 - not OK - and leaves the state unchanged; deleting the
same slot twice leaves the same state as deleting it once (the second
delete fails with Error but changes nothing), so deletion is idempotent on
the state though not in its status. -/
theorem c3_deleteProfile_semantics :
    (∀ o fs slot, dirGet fs.profiles (profileFileName slot) = none →
      Handle o fs ⟨CmdDeleteProfile, [slot]⟩ = (⟨StatusError, []⟩, fs)) ∧
    (∀ o fs slot, (fs.profiles.map Prod.fst).Nodup →
      (Handle o (Handle o fs ⟨CmdDeleteProfile, [slot]⟩).2
        ⟨CmdDeleteProfile, [slot]⟩).2
      = (Handle o fs ⟨CmdDeleteProfile, [slot]⟩).2) := by
  constructor
  · intro o fs slot habs
    have e1 : Handle o fs ⟨CmdDeleteProfile, [slot]⟩
        = handleDeleteProfile fs [slot] := rfl
    rw [e1]
    simp [handleDeleteProfile, Manager.DeleteProfile,
      (dirDel_none_iff _ _).mpr habs]
  · intro o fs slot hnd
    have e1 : ∀ g, Handle o g ⟨CmdDeleteProfile, [slot]⟩
        = handleDeleteProfile g [slot] := fun g => rfl
    rw [e1, e1]
    cases hdel : dirDel fs.profiles (profileFileName slot) with
    | none =>
      simp [handleDeleteProfile, Manager.DeleteProfile, hdel]
    | some d2 =>
      have hgone : dirGet d2 (profileFileName slot) = none := by
        rw [← dirDelForce_of_dirDel_some hdel]
        exact dirGet_dirDelForce_self _ _ hnd
      simp [handleDeleteProfile, Manager.DeleteProfile, hdel,
        (dirDel_none_iff _ _).mpr hgone]

/-- Witness for the amended claim C3: deleting the occupied slot 0 once and
then again leaves the same state. -/
theorem c3_deleteProfile_witness :
    (Handle Oracle.ok
      (Handle Oracle.ok ⟨true, true, [], [(profileFileName 0, [7])], 262144⟩
        ⟨CmdDeleteProfile, [0]⟩).2 ⟨CmdDeleteProfile, [0]⟩).2
    = (Handle Oracle.ok ⟨true, true, [], [(profileFileName 0, [7])], 262144⟩
        ⟨CmdDeleteProfile, [0]⟩).2 :=
  c3_deleteProfile_semantics.2 Oracle.ok
    ⟨true, true, [], [(profileFileName 0, [7])], 262144⟩ 0 (by decide)

/-! ## Claim C4 -/

/-- Claim C4. A SetProfile frame with the exact 287-byte payload whose
embedded version field (payload bytes 1 and 2, little endian) differs from
CurrentVersion is answered VersionMismatch 0x06 with the state returned
unchanged: the version gate fires before any storage call, so the target
slot's prior contents - value or absence - are untouched. -/
theorem c4_setProfile_version_gate (o : Oracle) (fs : FS)
    (payload : List Nat) (hlen : payload.length = 287)
    (hver : u16le (payload.getD 1 0) (payload.getD 2 0) ≠ CurrentVersion) :
    Handle o fs ⟨CmdSetProfile, payload⟩
      = (⟨StatusVersionMismatch, []⟩, fs) := by
  have e1 : Handle o fs ⟨CmdSetProfile, payload⟩
      = handleSetProfile o fs payload := rfl
  rw [e1]
  have hv : (profileOf (payload.drop 1)).Version ≠ CurrentVersion := by
    simp only [profileOf, getD_drop_one]
    exact hver
  have hun : Profile.unmarshalBinary (payload.drop 1)
      = .ok (profileOf (payload.drop 1)) := by
    unfold Profile.unmarshalBinary
    rw [if_neg (by simp [hlen])]
  unfold handleSetProfile
  rw [if_neg (by simp [hlen]), hun]
  simp [hv, -List.drop_one]

set_option maxRecDepth 4000 in
/-- Witness for claim C4: a 287-byte payload carrying embedded version 2. -/
theorem c4_setProfile_version_gate_witness :
    Handle Oracle.ok (FS.empty 262144)
      ⟨CmdSetProfile, 0 :: 2 :: 0 :: List.replicate 284 0⟩
      = (⟨StatusVersionMismatch, []⟩, FS.empty 262144) :=
  c4_setProfile_version_gate Oracle.ok (FS.empty 262144)
    (0 :: 2 :: 0 :: List.replicate 284 0) (by decide) (by decide)

/-! ## Claim C10 -/

/-- Counterexample to claim C10 as stated: when directory creation fails,
SaveProfile returns before the line that sets the version, so the
caller-supplied struct keeps Version 0, not CurrentVersion. -/
theorem c10_counterexample :
    (Manager.SaveProfile ⟨true, false, false, false, false, false, false⟩
      (FS.empty 262144) 0 ⟨0, 0, 0, 0, 0, 0, 0, [], []⟩).2.2.Version
      ≠ CurrentVersion := by
  simp [Manager.SaveProfile, ensureDirs, CurrentVersion]

/-- Claim C10 (amended). Provided ensureDirs succeeds (neither Mkdir call
fails), SaveProfile sets the caller's profile Version to CurrentVersion and
leaves every other field unchanged regardless of whether the subsequent
write succeeds or fails, and SaveDevice does the same to the caller's
device config; if ensureDirs itself fails - whichever of its two Mkdir
calls is the one that fails - SaveProfile and SaveDevice return before the
mutation point and the structs are returned completely unmodified. -/
theorem c10_save_mutates_struct :
    (∀ o fs slot p, o.mkdirConfigFails = false → o.mkdirProfilesFails = false →
      (Manager.SaveProfile o fs slot p).2.2
        = { p with Version := CurrentVersion }) ∧
    (∀ o fs cfg, o.mkdirConfigFails = false → o.mkdirProfilesFails = false →
      (Manager.SaveDevice o fs cfg).2.2
        = { cfg with Version := CurrentVersion }) ∧
    (∀ o fs slot p cfg,
      o.mkdirConfigFails = true ∨ o.mkdirProfilesFails = true →
      (Manager.SaveProfile o fs slot p).2.2 = p ∧
      (Manager.SaveDevice o fs cfg).2.2 = cfg) := by
  refine ⟨?_, ?_, ?_⟩
  · intro o fs slot p h1 h2
    simp [Manager.SaveProfile, ensureDirs, h1, h2]
  · intro o fs cfg h1 h2
    simp [Manager.SaveDevice, ensureDirs, h1, h2]
  · intro o fs slot p cfg h1
    have he : ∃ fsx, ensureDirs o fs = (.error Err.ioErr, fsx) := by
      rcases h1 with h1 | h1
      · exact ⟨fs, by simp [ensureDirs, h1]⟩
      · cases hc : o.mkdirConfigFails
        · exact ⟨{ fs with configDir := true },
            by simp [ensureDirs, hc, h1]⟩
        · exact ⟨fs, by simp [ensureDirs, hc]⟩
    obtain ⟨fsx, he⟩ := he
    constructor
    · simp [Manager.SaveProfile, he]
    · simp [Manager.SaveDevice, he]

/-- Witness for the amended claim C10 at concrete structs: an oracle whose
directory steps succeed but whose write, sync, close and rename all fail
still mutates the structs, and an oracle failing only the profiles-dir
Mkdir leaves them untouched. -/
theorem c10_save_mutates_struct_witness :
    (Manager.SaveProfile ⟨false, false, true, true, true, true, true⟩
      (FS.empty 262144) 3 ⟨7, 1, 2, 3, 4, 5, 6, [9], []⟩).2.2
      = { (⟨7, 1, 2, 3, 4, 5, 6, [9], []⟩ : Profile)
          with Version := CurrentVersion } ∧
    (Manager.SaveDevice ⟨false, false, true, true, true, true, true⟩
      (FS.empty 262144) ⟨7, 1, 2, 3, 4, 5, 6⟩).2.2
      = { (⟨7, 1, 2, 3, 4, 5, 6⟩ : DeviceConfig)
          with Version := CurrentVersion } ∧
    (Manager.SaveProfile ⟨false, true, false, false, false, false, false⟩
      (FS.empty 262144) 3 ⟨7, 1, 2, 3, 4, 5, 6, [9], []⟩).2.2
      = ⟨7, 1, 2, 3, 4, 5, 6, [9], []⟩ ∧
    (Manager.SaveDevice ⟨false, true, false, false, false, false, false⟩
      (FS.empty 262144) ⟨7, 1, 2, 3, 4, 5, 6⟩).2.2
      = ⟨7, 1, 2, 3, 4, 5, 6⟩ :=
  ⟨c10_save_mutates_struct.1 ⟨false, false, true, true, true, true, true⟩
      (FS.empty 262144) 3 ⟨7, 1, 2, 3, 4, 5, 6, [9], []⟩ rfl rfl,
   c10_save_mutates_struct.2.1 ⟨false, false, true, true, true, true, true⟩
      (FS.empty 262144) ⟨7, 1, 2, 3, 4, 5, 6⟩ rfl rfl,
   (c10_save_mutates_struct.2.2 ⟨false, true, false, false, false, false,
      false⟩ (FS.empty 262144) 3 ⟨7, 1, 2, 3, 4, 5, 6, [9], []⟩
      ⟨7, 1, 2, 3, 4, 5, 6⟩ (Or.inr rfl)).1,
   (c10_save_mutates_struct.2.2 ⟨false, true, false, false, false, false,
      false⟩ (FS.empty 262144) 3 ⟨7, 1, 2, 3, 4, 5, 6, [9], []⟩
      ⟨7, 1, 2, 3, 4, 5, 6⟩ (Or.inr rfl)).2⟩

/-! ## Claim C6 witness -/

/-- Witness for claim C6 at a concrete ping frame. -/
theorem c6_roundtrip_witness :
    ReadFrame (WriteFrame ⟨8, [1, 2, 3]⟩) = .ok (⟨8, [1, 2, 3]⟩, []) :=
  readFrame_writeFrame ⟨8, [1, 2, 3]⟩ (by decide)

/-! ## Claim C5 -/

theorem profile_set_version_eq_self {p : Profile}
    (h : p.Version = CurrentVersion) :
    ({ p with Version := CurrentVersion } : Profile) = p := by
  rcases p with ⟨v, f, c, pt, r1, bc, r2, nm, bs⟩
  have h2 : v = CurrentVersion := h
  subst h2
  rfl

theorem handleSetProfile_ok (fs : FS) (payload : List Nat)
    (hlen : payload.length = 287) (hb : ∀ x ∈ payload, x < 256)
    (hver : u16le (payload.getD 1 0) (payload.getD 2 0) = CurrentVersion) :
    handleSetProfile Oracle.ok fs payload
      = (⟨StatusOK, []⟩,
         { fs with
             configDir := true
             profilesDir := true
             profiles := (awResult fs.profiles
               (profileFileName (payload.getD 0 0)) (payload.drop 1)) }) := by
  have hv : (profileOf (payload.drop 1)).Version = CurrentVersion := by
    simp only [profileOf, getD_drop_one]
    exact hver
  have hun : Profile.unmarshalBinary (payload.drop 1)
      = .ok (profileOf (payload.drop 1)) := by
    unfold Profile.unmarshalBinary
    rw [if_neg (by simp [hlen])]
  have hps : ({ profileOf (payload.drop 1) with Version := CurrentVersion }
      : Profile) = profileOf (payload.drop 1) := profile_set_version_eq_self hv
  have hmar : (profileOf (payload.drop 1)).marshalBinary = payload.drop 1 :=
    marshal_profileOf _ (by simp [hlen])
      (fun x hx => hb x (List.mem_of_mem_drop hx))
  have hsave : Manager.SaveProfile Oracle.ok fs (payload.getD 0 0)
      (profileOf (payload.drop 1))
      = (.ok (),
         { fs with
             configDir := true
             profilesDir := true
             profiles := (awResult fs.profiles
               (profileFileName (payload.getD 0 0)) (payload.drop 1)) },
         profileOf (payload.drop 1)) := by
    unfold Manager.SaveProfile
    have he : ensureDirs Oracle.ok fs
        = (.ok (), { fs with configDir := true, profilesDir := true }) := rfl
    rw [he]
    simp only [hps, hmar, atomicWrite_ok_eq]
  unfold handleSetProfile
  rw [if_neg (by simp [hlen]), hun]
  simp only [hsave]
  simp [hv, -List.drop_one]

theorem handleGetProfile_stored (fs : FS) (slot : Nat) (stored : List Nat)
    (hget : dirGet fs.profiles (profileFileName slot) = some stored)
    (hlen : stored.length = 286) (hb : ∀ x ∈ stored, x < 256) :
    handleGetProfile fs [slot] = (⟨StatusOK, stored⟩, fs) := by
  have htake : stored.take 286 = stored := by
    rw [← hlen]
    exact List.take_length stored
  have hun : Profile.unmarshalBinary stored = .ok (profileOf stored) := by
    unfold Profile.unmarshalBinary
    rw [if_neg (by simp [hlen])]
  have hload : Manager.LoadProfile fs slot = .ok (profileOf stored) := by
    unfold Manager.LoadProfile
    simp only [hget]
    rw [if_neg (by simp [hlen]), htake, hun]
  unfold handleGetProfile
  rw [if_neg (by simp)]
  simp only [List.getD_cons_zero, hload]
  rw [marshal_profileOf stored hlen hb]

theorem device_set_version_eq_self {d : DeviceConfig}
    (h : d.Version = CurrentVersion) :
    ({ d with Version := CurrentVersion } : DeviceConfig) = d := by
  rcases d with ⟨v, f, a, b, m, r1, r2⟩
  have h2 : v = CurrentVersion := h
  subst h2
  rfl

theorem handleSetDeviceConfig_ok (fs : FS) (payload : List Nat)
    (hlen : payload.length = 12) (hb : ∀ x ∈ payload, x < 256) :
    handleSetDeviceConfig Oracle.ok fs payload
      = (⟨StatusOK, []⟩,
         { fs with
             configDir := true
             profilesDir := true
             config := (awResult fs.config
               deviceFileName (putU16 CurrentVersion ++ payload.drop 2)) }) := by
  have hun : DeviceConfig.unmarshalBinary payload
      = .ok (deviceCfgOf payload) := by
    unfold DeviceConfig.unmarshalBinary
    rw [if_neg (by simp [hlen])]
  have hmar : ({ deviceCfgOf payload with Version := CurrentVersion }
      : DeviceConfig).marshalBinary
      = putU16 CurrentVersion ++ payload.drop 2 := by
    rw [device_marshal_setVersion, marshal_deviceCfgOf payload hlen hb]
  have hsave : Manager.SaveDevice Oracle.ok fs (deviceCfgOf payload)
      = (.ok (),
         { fs with
             configDir := true
             profilesDir := true
             config := (awResult fs.config deviceFileName
               (putU16 CurrentVersion ++ payload.drop 2)) },
         { deviceCfgOf payload with Version := CurrentVersion }) := by
    unfold Manager.SaveDevice
    have he : ensureDirs Oracle.ok fs
        = (.ok (), { fs with configDir := true, profilesDir := true }) := rfl
    rw [he]
    simp only [hmar, atomicWrite_ok_eq]
  unfold handleSetDeviceConfig
  rw [if_neg (by simp [hlen]), hun]
  simp only [hsave]

theorem handleGetDeviceConfig_stored (fs : FS) (stored : List Nat)
    (hget : dirGet fs.config deviceFileName = some stored)
    (hlen : stored.length = 12) (hb : ∀ x ∈ stored, x < 256) :
    handleGetDeviceConfig fs = (⟨StatusOK, stored⟩, fs) := by
  have htake : stored.take 12 = stored := by
    rw [← hlen]
    exact List.take_length stored
  have hun : DeviceConfig.unmarshalBinary stored
      = .ok (deviceCfgOf stored) := by
    unfold DeviceConfig.unmarshalBinary
    rw [if_neg (by simp [hlen])]
  have hload : Manager.LoadDevice fs = .ok (deviceCfgOf stored) := by
    unfold Manager.LoadDevice
    simp only [hget]
    rw [if_neg (by simp [hlen]), htake, hun]
  unfold handleGetDeviceConfig
  simp only [hload]
  rw [marshal_deviceCfgOf stored hlen hb]

/-- Claim C5. Persistence round trip. First part: for every 287-byte
SetProfile payload of valid bytes whose embedded version equals
CurrentVersion, handling SetProfile answers OK, and then handling
GetProfile for the same slot answers OK with payload bitwise-equal to the
286 profile bytes that were set (whose version field is CurrentVersion),
without changing the state further. Second part: for every 12-byte
SetDeviceConfig payload of valid bytes, handling SetDeviceConfig answers
OK, and then GetDeviceConfig answers OK with the stored 12-byte record:
the version field forced to CurrentVersion and every other byte exactly as
written. -/
theorem c5_persistence_roundtrip :
    (∀ fs payload, payload.length = 287 → (∀ x ∈ payload, x < 256) →
      u16le (payload.getD 1 0) (payload.getD 2 0) = CurrentVersion →
      (Handle Oracle.ok fs ⟨CmdSetProfile, payload⟩).1 = ⟨StatusOK, []⟩ ∧
      Handle Oracle.ok (Handle Oracle.ok fs ⟨CmdSetProfile, payload⟩).2
          ⟨CmdGetProfile, [payload.getD 0 0]⟩
        = (⟨StatusOK, payload.drop 1⟩,
           (Handle Oracle.ok fs ⟨CmdSetProfile, payload⟩).2)) ∧
    (∀ fs payload, payload.length = 12 → (∀ x ∈ payload, x < 256) →
      (Handle Oracle.ok fs ⟨CmdSetDeviceConfig, payload⟩).1
        = ⟨StatusOK, []⟩ ∧
      Handle Oracle.ok (Handle Oracle.ok fs ⟨CmdSetDeviceConfig, payload⟩).2
          ⟨CmdGetDeviceConfig, []⟩
        = (⟨StatusOK, putU16 CurrentVersion ++ payload.drop 2⟩,
           (Handle Oracle.ok fs ⟨CmdSetDeviceConfig, payload⟩).2)) := by
  constructor
  · intro fs payload hlen hb hver
    have e1 : Handle Oracle.ok fs ⟨CmdSetProfile, payload⟩
        = handleSetProfile Oracle.ok fs payload := rfl
    have e2 : ∀ g s, Handle Oracle.ok g ⟨CmdGetProfile, [s]⟩
        = handleGetProfile g [s] := fun g s => rfl
    rw [e1, e2, handleSetProfile_ok fs payload hlen hb hver]
    refine ⟨rfl, ?_⟩
    exact handleGetProfile_stored _ (payload.getD 0 0) (payload.drop 1)
      (awResult_get_self _ _ _) (by simp [hlen])
      (fun x hx => hb x (List.mem_of_mem_drop hx))
  · intro fs payload hlen hb
    have e1 : Handle Oracle.ok fs ⟨CmdSetDeviceConfig, payload⟩
        = handleSetDeviceConfig Oracle.ok fs payload := rfl
    have e2 : ∀ g, Handle Oracle.ok g ⟨CmdGetDeviceConfig, []⟩
        = handleGetDeviceConfig g := fun g => rfl
    rw [e1, e2, handleSetDeviceConfig_ok fs payload hlen hb]
    refine ⟨rfl, ?_⟩
    refine handleGetDeviceConfig_stored _ (putU16 CurrentVersion ++
      payload.drop 2) (awResult_get_self _ _ _) (by simp [putU16, hlen]) ?_
    intro x hx
    rcases List.mem_append.mp hx with hx | hx
    · simp [putU16, CurrentVersion] at hx
      omega
    · exact hb x (List.mem_of_mem_drop hx)

set_option maxRecDepth 8000 in
/-- Witness for claim C5 at a concrete profile payload (slot 5, version 1,
zero body) and a concrete 12-byte device config. -/
theorem c5_persistence_roundtrip_witness :
    (Handle Oracle.ok (FS.empty 262144)
      ⟨CmdSetProfile, 5 :: 1 :: 0 :: List.replicate 284 0⟩).1
      = ⟨StatusOK, []⟩ ∧
    Handle Oracle.ok (Handle Oracle.ok (FS.empty 262144)
        ⟨CmdSetProfile, 5 :: 1 :: 0 :: List.replicate 284 0⟩).2
        ⟨CmdGetProfile, [(5 :: 1 :: 0 :: List.replicate 284 0).getD 0 0]⟩
      = (⟨StatusOK, (5 :: 1 :: 0 :: List.replicate 284 0).drop 1⟩,
         (Handle Oracle.ok (FS.empty 262144)
           ⟨CmdSetProfile, 5 :: 1 :: 0 :: List.replicate 284 0⟩).2) ∧
    (Handle Oracle.ok (FS.empty 262144)
      ⟨CmdSetDeviceConfig, [3, 0, 1, 2, 3, 4, 7, 200, 10, 0, 0, 0]⟩).1
      = ⟨StatusOK, []⟩ ∧
    Handle Oracle.ok (Handle Oracle.ok (FS.empty 262144)
        ⟨CmdSetDeviceConfig, [3, 0, 1, 2, 3, 4, 7, 200, 10, 0, 0, 0]⟩).2
        ⟨CmdGetDeviceConfig, []⟩
      = (⟨StatusOK, putU16 CurrentVersion ++
          [3, 0, 1, 2, 3, 4, 7, 200, 10, 0, 0, 0].drop 2⟩,
         (Handle Oracle.ok (FS.empty 262144)
           ⟨CmdSetDeviceConfig, [3, 0, 1, 2, 3, 4, 7, 200, 10, 0, 0, 0]⟩).2) := by
  have h1 := c5_persistence_roundtrip.1 (FS.empty 262144)
    (5 :: 1 :: 0 :: List.replicate 284 0) (by decide) (by decide) (by decide)
  have h2 := c5_persistence_roundtrip.2 (FS.empty 262144)
    [3, 0, 1, 2, 3, 4, 7, 200, 10, 0, 0, 0] (by decide) (by decide)
  exact ⟨h1.1, h1.2, h2.1, h2.2⟩

/-! ## Claim C8 -/

/-- Claim C8. The status code CRCError 0x07 is never emitted: Handle never
produces a response with that status whatever the command, the state and
the oracle; and any byte stream that parses structurally but whose received
CRC differs from the CRC computed over command, length bytes and payload
makes ReadFrame fail with ErrCRCMismatch, and one iteration of the serial
loop on such a stream dispatches nothing and produces no response. -/
theorem c8_crcError_never_emitted :
    (∀ o fs frame, (Handle o fs frame).1.Status ≠ StatusCRCError) ∧
    (∀ cmd l0 l1 payload c0 c1 extra, payload.length = u16le l0 l1 →
      u16le l0 l1 ≤ 4096 →
      u16le c0 c1 ≠ calcCRC ([cmd, l0, l1] ++ payload) →
      ReadFrame (SyncByte :: cmd :: l0 :: l1 ::
        (payload ++ c0 :: c1 :: extra)) = .error .crcMismatch ∧
      ∀ o fs, serialStep o fs (SyncByte :: cmd :: l0 :: l1 ::
        (payload ++ c0 :: c1 :: extra)) = none) := by
  constructor
  · intro o fs frame
    rcases frame with ⟨cmd, payload⟩
    unfold Handle handlePing handleGetDeviceConfig handleSetDeviceConfig
      handleGetProfile handleSetProfile handleDeleteProfile
      handleListProfiles handleGetStorageStats handleFactoryReset
      handleGetVersion handleDiscover Manager.ForceWipe
    repeat' split
    all_goals simp [StatusOK, StatusError, StatusInvalidCmd,
      StatusInvalidData, StatusNotFound, StatusNoSpace,
      StatusVersionMismatch, StatusCRCError]
  · intro cmd l0 l1 payload c0 c1 extra hplen hle hcrc
    have htake : (payload ++ c0 :: c1 :: extra).take (u16le l0 l1)
        = payload := List.take_left' hplen
    have hdrop : (payload ++ c0 :: c1 :: extra).drop (u16le l0 l1)
        = c0 :: c1 :: extra := List.drop_left' hplen
    have hroom : ¬ ((payload ++ c0 :: c1 :: extra).length < u16le l0 l1) := by
      rw [List.length_append]
      omega
    have key : ReadFrame (SyncByte :: cmd :: l0 :: l1 ::
        (payload ++ c0 :: c1 :: extra)) = .error .crcMismatch := by
      simp only [ReadFrame, htake, hdrop]
      rw [if_neg (by simp), if_neg (by omega), if_neg hroom, if_pos hcrc]
    exact ⟨key, fun o fs => by simp [serialStep, key]⟩

/-- Witness for claim C8 at the CRC-failing ping frame of the repo's
TestCRCMismatch (sync, command 8, zero length, CRC bytes FF FF). -/
theorem c8_crcError_witness :
    ReadFrame (SyncByte :: 8 :: 0 :: 0 :: ([] ++ 255 :: 255 :: []))
      = .error .crcMismatch :=
  (c8_crcError_never_emitted.2 8 0 0 [] 255 255 [] (by decide) (by decide)
    (by decide)).1

theorem saveProfile_ok_eq (fs : FS) (slot : Nat) (p : Profile) :
    Manager.SaveProfile Oracle.ok fs slot p
      = (.ok (),
         { fs with
             configDir := true
             profilesDir := true
             profiles := (awResult fs.profiles
               (profileFileName slot)
               (({ p with Version := CurrentVersion }
                 : Profile).marshalBinary)) },
         { p with Version := CurrentVersion }) := by
  unfold Manager.SaveProfile
  have he : ensureDirs Oracle.ok fs
      = (.ok (), { fs with configDir := true, profilesDir := true }) := rfl
  rw [he]
  simp only [atomicWrite_ok_eq]

theorem canonDir_save (d : List (FName × List Nat)) (slot : Nat)
    (hs : slot ≤ 255) (data : List Nat) (h : CanonDir d) :
    CanonDir (awResult d (profileFileName slot) data) := by
  refine ⟨awResult_nodup _ _ _ h.1, ?_⟩
  intro k hk
  rcases awResult_keys_subset _ _ _ h.1 k hk with rfl | hk2
  · exact ⟨slot, hs, rfl⟩
  · exact h.2 k hk2

theorem canonDir_del {d d2 : List (FName × List Nat)} (k : FName)
    (h : dirDel d k = some d2) (hc : CanonDir d) : CanonDir d2 := by
  have hsub := dirDelForce_sublist d k
  rw [dirDelForce_of_dirDel_some h] at hsub
  exact ⟨(hsub.map Prod.fst).nodup hc.1,
    fun q hq => hc.2 q ((hsub.map Prod.fst).mem hq)⟩

theorem runOps_canon : ∀ (ops : List StoreOp) (fs fs2 : FS),
    (∀ op ∈ ops, op.slot ≤ 255) → CanonDir fs.profiles →
    runOps fs ops = some fs2 → CanonDir fs2.profiles := by
  intro ops
  induction ops with
  | nil =>
    intro fs fs2 _ hc h
    simp only [runOps, Option.some.injEq] at h
    rw [← h]
    exact hc
  | cons op rest ih =>
    intro fs fs2 hwf hc h
    cases op with
    | save slot p =>
      rw [runOps, saveProfile_ok_eq] at h
      have hs : slot ≤ 255 := by
        have hh := hwf (StoreOp.save slot p) (List.mem_cons_self _ _)
        simpa [StoreOp.slot] using hh
      exact ih _ _ (fun q hq => hwf q (by simp [hq]))
        (canonDir_save _ slot hs _ hc) h
    | del slot =>
      rw [runOps] at h
      unfold Manager.DeleteProfile at h
      cases hdel : dirDel fs.profiles (profileFileName slot) with
      | none => rw [hdel] at h; simp at h
      | some d2 =>
        rw [hdel] at h
        exact ih _ _ (fun q hq => hwf q (by simp [hq]))
          (canonDir_del _ hdel hc) h

theorem filterMap_parse_canon : ∀ keys : List FName,
    (∀ k ∈ keys, ∃ s, s ≤ 255 ∧ k = profileFileName s) → keys.Nodup →
    (keys.filterMap parseProfileEntry).Nodup ∧
    ∀ s : Nat, s ∈ keys.filterMap parseProfileEntry ↔
      profileFileName s ∈ keys := by
  intro keys
  induction keys with
  | nil => simp
  | cons k rest ih =>
    intro hcan hnd
    obtain ⟨s0, hs0, rfl⟩ := hcan k (by simp)
    have hparse : parseProfileEntry (profileFileName s0) = some s0 :=
      parseProfileEntry_profileFileName s0 hs0
    have hndr := List.nodup_cons.mp hnd
    obtain ⟨ihn, ihm⟩ := ih (fun q hq => hcan q (by simp [hq])) hndr.2
    constructor
    · rw [List.filterMap_cons, hparse]
      refine List.nodup_cons.mpr ⟨?_, ihn⟩
      intro hmem
      exact hndr.1 ((ihm s0).mp hmem)
    · intro s
      rw [List.filterMap_cons, hparse]
      constructor
      · intro hmem
        rcases List.mem_cons.mp hmem with rfl | hmem
        · exact List.mem_cons_self _ _
        · exact List.mem_cons_of_mem _ ((ihm s).mp hmem)
      · intro hmem
        rcases List.mem_cons.mp hmem with heq | hmem
        · rw [profileFileName_injective heq]
          exact List.mem_cons_self _ _
        · exact List.mem_cons_of_mem _ ((ihm s).mpr hmem)

theorem runOps_profilesDir : ∀ (ops : List StoreOp) (fs fs2 : FS),
    fs.profilesDir = true → runOps fs ops = some fs2 →
    fs2.profilesDir = true := by
  intro ops
  induction ops with
  | nil =>
    intro fs fs2 hd h
    simp only [runOps, Option.some.injEq] at h
    rw [← h]
    exact hd
  | cons op rest ih =>
    intro fs fs2 hd h
    cases op with
    | save slot p =>
      rw [runOps, saveProfile_ok_eq] at h
      exact ih _ _ rfl h
    | del slot =>
      rw [runOps] at h
      unfold Manager.DeleteProfile at h
      cases hdel : dirDel fs.profiles (profileFileName slot) with
      | none => rw [hdel] at h; simp at h
      | some d2 =>
        rw [hdel] at h
        exact ih { fs with profiles := d2 } fs2 hd h

theorem runOps_nonempty_profilesDir (ops : List StoreOp) (sz : Nat)
    (fs2 : FS) (hne : ops ≠ []) (h : runOps (FS.empty sz) ops = some fs2) :
    fs2.profilesDir = true := by
  cases ops with
  | nil => exact absurd rfl hne
  | cons op rest =>
    cases op with
    | save slot p =>
      rw [runOps, saveProfile_ok_eq] at h
      exact runOps_profilesDir rest _ fs2 rfl h
    | del slot =>
      rw [runOps] at h
      simp [Manager.DeleteProfile, FS.empty, dirDel] at h

/-- Claim C7 (amended). After any nonempty sequence of successful
SaveProfile and DeleteProfile operations starting from an empty store (such
a sequence necessarily begins with a successful save, whose ensureDirs
creates the profiles directory), ListProfiles returns exactly the set of
currently occupied slots with no duplicate entries, the ListProfiles
response payload is the count byte uint8(len(slots)) followed by the slots,
and the first payload byte equals the number of occupied slots whenever at
most 255 slots are occupied (with all 256 occupied the byte wraps to 0).
On the pristine store with no operations the profiles directory does not
yet exist, ListProfiles propagates the littlefs No-directory-entry error
(which os.IsNotExist does not match), and the ListProfiles command is
answered StatusError with an empty payload and an unchanged state. -/
theorem c7_list_correctness :
    (∀ (ops : List StoreOp) (sz : Nat) (fs : FS),
      (∀ op ∈ ops, op.slot ≤ 255) → ops ≠ [] →
      runOps (FS.empty sz) ops = some fs →
      ∃ slots, Manager.ListProfiles fs = .ok slots ∧ slots.Nodup ∧
        (∀ s, s ∈ slots ↔ Manager.ProfileExists fs s = true) ∧
        (Handle Oracle.ok fs ⟨CmdListProfiles, []⟩).1.Payload
          = (slots.length % 256) :: slots ∧
        (slots.length ≤ 255 →
          (Handle Oracle.ok fs ⟨CmdListProfiles, []⟩).1.Payload.getD 0 0
            = slots.length)) ∧
    (∀ (o : Oracle) (sz : Nat),
      Handle o (FS.empty sz) ⟨CmdListProfiles, []⟩
        = (⟨StatusError, []⟩, FS.empty sz)) := by
  constructor
  · intro ops sz fs hwf hne hrun
    have hdir : fs.profilesDir = true :=
      runOps_nonempty_profilesDir ops sz fs hne hrun
    have hc : CanonDir fs.profiles :=
      runOps_canon ops (FS.empty sz) fs hwf
        ⟨by simp [FS.empty], by simp [FS.empty]⟩ hrun
    obtain ⟨hnd, hmem⟩ := filterMap_parse_canon (fs.profiles.map Prod.fst)
      hc.2 hc.1
    have hlp : Manager.ListProfiles fs
        = .ok ((fs.profiles.map Prod.fst).filterMap parseProfileEntry) := by
      simp [Manager.ListProfiles, hdir]
    have e1 : Handle Oracle.ok fs ⟨CmdListProfiles, []⟩
        = handleListProfiles fs := rfl
    have hpay : (Handle Oracle.ok fs ⟨CmdListProfiles, []⟩).1.Payload
        = (((fs.profiles.map Prod.fst).filterMap parseProfileEntry).length
          % 256) :: (fs.profiles.map Prod.fst).filterMap parseProfileEntry := by
      rw [e1]
      simp only [handleListProfiles, hlp]
    refine ⟨(fs.profiles.map Prod.fst).filterMap parseProfileEntry, hlp, hnd,
      ?_, hpay, ?_⟩
    · intro s
      rw [hmem s, mem_keys_iff_dirGet]
      simp [Manager.ProfileExists]
    · intro hle
      rw [hpay, List.getD_cons_zero]
      exact Nat.mod_eq_of_lt (by omega)
  · intro o sz
    rfl

theorem runOps_save_list : ∀ (slots : List Nat) (p : Profile) (fs : FS),
    ∃ fs2, runOps fs (slots.map (fun s => StoreOp.save s p)) = some fs2 ∧
      ∀ q, Manager.ProfileExists fs2 q = true ↔
        (q ∈ slots ∨ Manager.ProfileExists fs q = true) := by
  intro slots
  induction slots with
  | nil =>
    intro p fs
    exact ⟨fs, rfl, by simp⟩
  | cons s rest ih =>
    intro p fs
    obtain ⟨fs2, hrun, hocc⟩ := ih p
      { fs with
          configDir := true
          profilesDir := true
          profiles := (awResult fs.profiles (profileFileName s)
            (({ p with Version := CurrentVersion }
              : Profile).marshalBinary)) }
    refine ⟨fs2, ?_, ?_⟩
    · rw [List.map_cons, runOps, saveProfile_ok_eq]
      exact hrun
    · intro q
      rw [hocc q]
      by_cases hqs : q = s
      · subst hqs
        simp [Manager.ProfileExists, awResult_get_self]
      · have hne : profileFileName q ≠ profileFileName s :=
          fun h => hqs (profileFileName_injective h)
        have hnt : profileFileName q ≠ profileFileName s ++ dotTmp :=
          profileFileName_ne_append_dotTmp q (profileFileName s)
        simp only [Manager.ProfileExists, awResult_get_other _ _ _ _ hne hnt]
        constructor
        · rintro (hmem | hex)
          · exact Or.inl (List.mem_cons_of_mem _ hmem)
          · exact Or.inr hex
        · rintro (hmem | hex)
          · rcases List.mem_cons.mp hmem with heq | hmem
            · exact absurd heq hqs
            · exact Or.inl hmem
          · exact Or.inr hex

set_option maxRecDepth 20000 in
/-- Witness for the amended claim C7: the concrete one-save sequence, and
the pristine empty store answered StatusError. -/
theorem c7_list_correctness_witness :
    (∃ slots, Manager.ListProfiles ((runOps (FS.empty 262144)
        [StoreOp.save 0 ⟨0, 0, 0, 0, 0, 0, 0, [], []⟩]).getD (FS.empty 0))
      = .ok slots ∧ slots.Nodup ∧
      (∀ s, s ∈ slots ↔ Manager.ProfileExists ((runOps (FS.empty 262144)
        [StoreOp.save 0 ⟨0, 0, 0, 0, 0, 0, 0, [], []⟩]).getD (FS.empty 0))
        s = true) ∧
      (Handle Oracle.ok ((runOps (FS.empty 262144)
        [StoreOp.save 0 ⟨0, 0, 0, 0, 0, 0, 0, [], []⟩]).getD (FS.empty 0))
        ⟨CmdListProfiles, []⟩).1.Payload = (slots.length % 256) :: slots ∧
      (slots.length ≤ 255 →
        (Handle Oracle.ok ((runOps (FS.empty 262144)
          [StoreOp.save 0 ⟨0, 0, 0, 0, 0, 0, 0, [], []⟩]).getD (FS.empty 0))
          ⟨CmdListProfiles, []⟩).1.Payload.getD 0 0 = slots.length)) ∧
    Handle Oracle.ok (FS.empty 262144) ⟨CmdListProfiles, []⟩
      = (⟨StatusError, []⟩, FS.empty 262144) :=
  ⟨c7_list_correctness.1 [StoreOp.save 0 ⟨0, 0, 0, 0, 0, 0, 0, [], []⟩] 262144
    ((runOps (FS.empty 262144)
      [StoreOp.save 0 ⟨0, 0, 0, 0, 0, 0, 0, [], []⟩]).getD (FS.empty 0))
    (by decide) (by simp) (by decide),
   c7_list_correctness.2 Oracle.ok 262144⟩

/-- Counterexample to claim C7 as stated: after successfully saving all 256
slots, 256 slots are occupied but the first payload byte of the
ListProfiles response is uint8(256) = 0, which is not the number of
occupied slots. -/
theorem c7_counterexample :
    ∃ fs slots, runOps (FS.empty 262144) allSlotsOps = some fs ∧
      Manager.ListProfiles fs = .ok slots ∧ slots.length = 256 ∧
      (Handle Oracle.ok fs ⟨CmdListProfiles, []⟩).1.Payload.getD 0 0 = 0 ∧
      (0 : Nat) ≠ 256 := by
  obtain ⟨fs, hrun, hocc⟩ := runOps_save_list (List.range 256)
    ⟨0, 0, 0, 0, 0, 0, 0, [], []⟩ (FS.empty 262144)
  have hrun2 : runOps (FS.empty 262144) allSlotsOps = some fs := hrun
  have hwf : ∀ op ∈ allSlotsOps, op.slot ≤ 255 := by
    intro op hop
    simp only [allSlotsOps, List.mem_map] at hop
    obtain ⟨s, hs, rfl⟩ := hop
    simp only [StoreOp.slot]
    have := List.mem_range.mp hs
    omega
  have hc : CanonDir fs.profiles :=
    runOps_canon allSlotsOps (FS.empty 262144) fs hwf
      ⟨by simp [FS.empty], by simp [FS.empty]⟩ hrun2
  have hne : allSlotsOps ≠ [] := by
    intro habs
    have hl := congrArg List.length habs
    simp [allSlotsOps] at hl
  have hdir : fs.profilesDir = true :=
    runOps_nonempty_profilesDir allSlotsOps 262144 fs hne hrun2
  have hlp : Manager.ListProfiles fs
      = .ok ((fs.profiles.map Prod.fst).filterMap parseProfileEntry) := by
    simp [Manager.ListProfiles, hdir]
  obtain ⟨hnd, hmem⟩ := filterMap_parse_canon (fs.profiles.map Prod.fst)
    hc.2 hc.1
  have hiff : ∀ s, s ∈ (fs.profiles.map Prod.fst).filterMap parseProfileEntry
      ↔ s ∈ List.range 256 := by
    intro s
    rw [hmem s, mem_keys_iff_dirGet]
    have hempty : Manager.ProfileExists (FS.empty 262144) s = false := rfl
    constructor
    · intro h
      have : Manager.ProfileExists fs s = true := by
        simp [Manager.ProfileExists, h]
      rcases (hocc s).mp this with hs | hs
      · exact hs
      · rw [hempty] at hs; exact absurd hs (by simp)
    · intro h
      have : Manager.ProfileExists fs s = true := (hocc s).mpr (Or.inl h)
      simpa [Manager.ProfileExists] using this
  have hperm : ((fs.profiles.map Prod.fst).filterMap
      parseProfileEntry).Perm (List.range 256) :=
    (List.perm_ext_iff_of_nodup hnd (List.nodup_range 256)).mpr hiff
  have hlen : ((fs.profiles.map Prod.fst).filterMap
      parseProfileEntry).length = 256 := by
    rw [hperm.length_eq, List.length_range]
  refine ⟨fs, (fs.profiles.map Prod.fst).filterMap parseProfileEntry,
    hrun2, hlp, hlen, ?_, by omega⟩
  have e1 : Handle Oracle.ok fs ⟨CmdListProfiles, []⟩
      = handleListProfiles fs := rfl
  have hpay : (Handle Oracle.ok fs ⟨CmdListProfiles, []⟩).1.Payload
      = (((fs.profiles.map Prod.fst).filterMap parseProfileEntry).length
        % 256) :: (fs.profiles.map Prod.fst).filterMap parseProfileEntry := by
    rw [e1]
    simp only [handleListProfiles, hlp]
  rw [hpay, hlen]
  rfl

end Narwhal

